import Mathlib

/-!
# Verification of DaCe frame-code generation and schedule-tree lowering

This file shallowly embeds the two source files

  * `dace/codegen/targets/framecode.py` (allocation-lifetime planning,
    external-memory entry points, file-header emission, dominator search,
    final text cleanup), and
  * `dace/sdfg/analysis/schedule_tree/treenodes.py` (schedule-tree nodes,
    printing, visitor/transformer protocol),

and proves properties of the embedded definitions.  Graph-shaped inputs
(SDFGs, states, dataflow scopes) are represented by natural-number
identifiers; external collaborators that the two files merely call
(`StateReachability`, `dtypes.can_allocate`, `utils.is_nonfree_sym_dependent`,
symbol queries, …) enter as parameters of an explicit context structure, so
every theorem quantifies over all of their possible answers.
-/

namespace Frame

/-- Storage classes (`dtypes.StorageType`), restricted to a representative
closed set; the lifetime planner only ever compares a storage against
`CPU_ThreadLocal`, all other members behave alike in the embedded code. -/
inductive StorageType where
  | CPU_Heap
  | CPU_ThreadLocal
  | CPU_Pinned
  | Register
  | GPU_Global
  | GPU_Shared
  | FPGA_Local
  deriving DecidableEq, Repr

/-- Allocation lifetimes (`dtypes.AllocationLifetime`), the closed set the
planner matches on. -/
inductive AllocationLifetime where
  | Scope
  | State
  | SDFG
  | Global
  | Persistent
  | External
  deriving DecidableEq, Repr

/-- A scope that can key `to_allocate` or serve as the current scope of the
allocatability climb: a dataflow entry node, a state, or an SDFG
(`Union[nodes.EntryNode, SDFGState, SDFG]`). -/
inductive ScopeVal where
  | entryScope (e : Nat)
  | stateScope (s : Nat)
  | sdfgScope (d : Nat)
  deriving DecidableEq, Repr

/-- A reference to an access node: either the i-th concrete node instance or
a freshly constructed `nodes.AccessNode(name)` (line 776 of framecode.py). -/
inductive NodeRef where
  | instN (i : Nat)
  | freshN
  deriving DecidableEq, Repr

/-- One entry of `to_allocate`: the owning SDFG, the anchor state, the anchor
access node, and the declare/allocate/deallocate flags (the 6-tuple built by
`determine_allocation_lifetime`). -/
structure AllocAction where
  asdfg : Nat
  astate : Option Nat
  anode : Option NodeRef
  declare : Bool
  alloc : Bool
  dealloc : Bool
  deriving DecidableEq, Repr

/-- The state of the allocatability climb (lines 723-749): the current scope
(`None` after climbing past the program root), current state and current
SDFG. -/
structure ClimbState where
  scope : Option ScopeVal
  state : Option Nat
  sdfg : Option Nat
  deriving DecidableEq, Repr

/-- The per-buffer slice of the planner's inputs.  Fields marked "external"
abstract collaborators living outside `framecode.py`; the claims are proved
for every possible value of those fields. -/
structure BufCtx where
  /-- id of the top-level SDFG (`top_sdfg`). -/
  topId : Nat
  /-- id of the SDFG declaring the buffer (`sdfg` in the loop of line 568). -/
  sdfgId : Nat
  /-- the buffer's name, as an identifier. -/
  name : Nat
  /-- Models `top_desc.transient`. -/
  topTransient : Bool
  /-- Models `top_desc.storage`. -/
  topStorage : StorageType
  /-- Models `top_desc.lifetime`. -/
  topLifetime : AllocationLifetime
  /-- Models `name in sdfg.constants_prop` (line 577). -/
  isConstant : Bool
  /-- Models `isinstance(desc, data.View)` (line 763). -/
  isView : Bool
  /-- Models `access_instances[sdfg.cfg_id][name]`: the (state, access node)
  occurrences in block topological order, including the synthesized
  occurrences for inter-state-edge uses (lines 552-563). -/
  instances : List (Nat × Nat)
  /-- Models `name in shared_transients[sdfg.cfg_id]` (external). -/
  isShared : Bool
  /-- the states (in `sdfg.states()` order, no duplicates) containing an
  access node of the buffer, used by the `State`-lifetime branch
  (lines 646-653). -/
  stateAccess : List Nat
  /-- whether `name` is a free symbol of some inter-state edge
  (lines 668-670, external symbol query). -/
  edgeUse : Bool
  /-- whether `name` is in some control-flow region's region-level
  `used_symbols` (lines 671-674, external symbol query). -/
  regionUse : Bool
  /-- the `Scope`-lifetime occurrence walk (lines 676-708): for every access
  node of the buffer, in state order then node order, the containing state
  and its scope entry node (`sdict[node]`, `none` when top-level). -/
  occs : List (Nat × Option Nat)
  /-- parent entry node in the scope tree of a state (`sdict`, external). -/
  scopeParent : Nat → Option Nat
  /-- whether an entry node is among a state's nodes
  (`scope in curscope.nodes()`, line 703, external). -/
  entryInState : Nat → Nat → Bool
  /-- Models `self._can_allocate(cursdfg, curstate, desc, curscope)` (external
  storage/schedule compatibility, lines 511-529). -/
  canAlloc : ClimbState → Bool
  /-- Models `curstate.entry_node(entry)`: the parent entry node of an entry node
  (external). -/
  entryParent : Nat → Option Nat
  /-- the SDFG owning a state (`curscope.parent`, external). -/
  stateSdfg : Nat → Nat
  /-- nesting of SDFGs: `none` when `parent_nsdfg_node is None`, otherwise
  the parent state, the entry node over the nested-SDFG node (if any) and
  the parent SDFG (lines 737-744, external). -/
  sdfgParent : Nat → Option (Nat × Option Nat × Nat)
  /-- fuel bounding the climb loop (the Python loop has no bound; all claims
  hold for every fuel). -/
  climbFuel : Nat
  /-- fuel bounding the spec-modelled common-parent-scope walk. -/
  lcaFuel : Nat
  /-- Models `utils.is_nonfree_sym_dependent(first_node_instance, desc,
  first_state_instance, fsymbols)` (line 755, external). -/
  nonfreeDepends : Bool
  /-- Models `any(inst not in reachability[sdfg.cfg_id][first_state_instance] for
  inst in instances)` (line 770, external reachability pass). -/
  instUnreachable : Bool
  /-- fuel bounding the dominator/post-dominator searches. -/
  domFuel : Nat
  /-- immediate dominators of states (external,
  `get_control_flow_block_dominators`). -/
  idom : Nat → Nat
  /-- Models `s ∈ alldoms[b]`, written `alldoms b s` (external). -/
  alldoms : Nat → Nat → Bool
  /-- immediate post-dominators of states (external). -/
  ipostdom : Nat → Nat
  /-- Models `s ∈ allpostdoms[b]`, written `allpostdoms b s` (external). -/
  allpostdoms : Nat → Nat → Bool

/-- The result of processing one buffer: the `to_allocate` entries appended
(keyed by scope; `none` models Python's `None` key), the `statestruct`
definitions appended (as (SDFG id, name) pairs standing for
`desc.as_arg(name=f'__{sdfg.cfg_id}_{name}') + ';'`), and the
`where_allocated` record (`none` when the buffer was skipped). -/
structure BufPlan where
  actions : List (Option ScopeVal × AllocAction)
  structEntries : List (Nat × Nat)
  whereAlloc : Option Nat
  deriving DecidableEq, Repr

/-- The empty plan: the buffer was skipped (`continue`). -/
def emptyPlan : BufPlan := ⟨[], [], none⟩

/-! ## Scope-lifetime candidate-scope resolution (lines 659-714) -/

/-- The current scope while walking a `Scope`-lifetime buffer's occurrences:
a dataflow entry node or a whole state (`Union[nodes.EntryNode, SDFGState]`). -/
inductive CurScope where
  | entryC (e : Nat)
  | stateC (s : Nat)
  deriving DecidableEq, Repr

/-- The chain of enclosing entry nodes of an entry node, innermost first,
followed to at most `fuel` links. -/
def ancestorChain (parent : Nat → Option Nat) : Nat → Nat → List Nat
  | 0, e => [e]
  | fuel + 1, e =>
    e :: (match parent e with
          | none => []
          | some p => ancestorChain parent fuel p)

/-- Modelled from the spec: `sdscope.common_parent_scope` (in
`dace/sdfg/scope.py`, not among the given source files).  Per the spec,
occurrences in disjoint nested scopes "resolve to their lowest common
ancestor in the scope tree" and "states outrank nested scopes", so the walk
returns the innermost common ancestor entry node of the two scopes, and the
containing state `st` when the two chains share no entry node. -/
def common_parent_scope (parent : Nat → Option Nat) (fuel : Nat) (st : Nat)
    (a b : Nat) : CurScope :=
  let achain := ancestorChain parent fuel a
  match (ancestorChain parent fuel b).find? (fun x => achain.contains x) with
  | some c => CurScope.entryC c
  | none => CurScope.stateC st

/-- Modelled from the spec: the call `common_parent_scope(sdict, scope,
curscope)` of line 705 lifted to `CurScope` arguments; a state argument
outranks nested scopes, so the result is that state. -/
def commonParentMixed (parent : Nat → Option Nat) (fuel : Nat) (st : Nat) :
    CurScope → CurScope → CurScope
  | CurScope.stateC s, _ => CurScope.stateC s
  | _, CurScope.stateC s => CurScope.stateC s
  | CurScope.entryC a, CurScope.entryC b => common_parent_scope parent fuel st a b

/-- The mutable state of the occurrence walk: `curscope`, `curstate`,
`multistate` (lines 663-665). -/
structure ScopeRes where
  curscope : Option CurScope
  curstate : Option Nat
  multistate : Bool
  deriving DecidableEq, Repr

/-- One occurrence step of the `Scope`-lifetime walk (lines 676-708); the
`break` statements are modelled by leaving the accumulator unchanged once
`multistate` is set. -/
def scopeStep (ctx : BufCtx) (acc : ScopeRes) (occ : Nat × Option Nat) : ScopeRes :=
  if acc.multistate then acc
  else
    let st := occ.1
    -- If already found in another state, set scope to SDFG (lines 686-689)
    if acc.curstate.isSome ∧ acc.curstate ≠ some st then
      { acc with multistate := true }
    else
      -- Current scope, or the state object if top-level (line 693)
      let scope : CurScope :=
        match occ.2 with
        | some e => CurScope.entryC e
        | none => CurScope.stateC st
      match acc.curscope with
      | none => ⟨some scope, some st, false⟩
      | some cur =>
        match scope with
        | CurScope.stateC _ =>
          -- States always win (lines 697-700)
          ⟨some scope, some st, false⟩
        | CurScope.entryC e =>
          match cur with
          | CurScope.stateC s =>
            -- line 702-704: keep the state when the entry is among its nodes
            if ctx.entryInState e s then ⟨some cur, some st, false⟩
            else ⟨some (commonParentMixed ctx.scopeParent ctx.lcaFuel st
                         (CurScope.entryC e) cur), some st, false⟩
          | CurScope.entryC _ =>
            ⟨some (commonParentMixed ctx.scopeParent ctx.lcaFuel st
                   (CurScope.entryC e) cur), some st, false⟩

/-- The full `Scope`-lifetime occurrence walk: `multistate` starts from the
inter-state-edge and region-level symbol checks (lines 667-674), then every
occurrence is visited in order. -/
def scopeResolve (ctx : BufCtx) : ScopeRes :=
  ctx.occs.foldl (scopeStep ctx) ⟨none, none, ctx.edgeUse || ctx.regionUse⟩

/-! ## Candidate scope per lifetime (lines 629-719) -/

/-- The candidate `(alloc_scope, alloc_state)` for the non-Persistent,
non-External, non-Global lifetimes (lines 633-714): `none` when the buffer
is skipped (`alloc_scope` stayed `None`, line 718, or the unused-shared
skip of line 641). -/
def scopeCandidate (ctx : BufCtx) : Option (ScopeVal × Option Nat) :=
  if ctx.isShared || ctx.topLifetime == AllocationLifetime.SDFG then
    -- SDFG descriptors are allocated in the beginning of their SDFG
    match ctx.instances.head? with
    | none => none  -- If unused, skip (lines 640-642)
    | some fst => some (ScopeVal.sdfgScope ctx.sdfgId, some fst.1)
  else if ctx.topLifetime == AllocationLifetime.State then
    -- State memory: containing state, or the SDFG if used in ≥ 2 states
    match ctx.stateAccess with
    | [] => none
    | [s] => some (ScopeVal.stateScope s, some s)
    | _ :: _ :: _ => some (ScopeVal.sdfgScope ctx.sdfgId, none)
  else
    -- Scope memory (default), lines 659-714
    let r := scopeResolve ctx
    if r.multistate then some (ScopeVal.sdfgScope ctx.sdfgId, none)
    else
      match r.curscope with
      | none => none
      | some (CurScope.entryC e) => some (ScopeVal.entryScope e, r.curstate)
      | some (CurScope.stateC s) => some (ScopeVal.stateScope s, r.curstate)

/-! ## The allocatability climb (lines 721-749) -/

/-- Go one SDFG up (lines 735-744): from the SDFG `d` the climb currently
stands in, move to its parent state/scope/SDFG, or clear everything when
`d` is the program root. -/
def climbFromSdfg (ctx : BufCtx) (d : Nat) : ClimbState :=
  match ctx.sdfgParent d with
  | none => ⟨none, none, none⟩
  | some (pstate, pentry, psdfg) =>
    ⟨pentry.map ScopeVal.entryScope, some pstate, some psdfg⟩

/-- One step up the scope tree (lines 729-746). -/
def climbStep (ctx : BufCtx) (cs : ClimbState) : ClimbState :=
  match cs.scope with
  | some (ScopeVal.entryScope e) =>
    -- Go one scope up (lines 730-733)
    (match ctx.entryParent e with
     | some p => { cs with scope := some (ScopeVal.entryScope p) }
     | none => { cs with scope := cs.state.map ScopeVal.stateScope })
  | some (ScopeVal.stateScope s) => climbFromSdfg ctx (ctx.stateSdfg s)
  | some (ScopeVal.sdfgScope d) => climbFromSdfg ctx d
  | none => cs

/-- The climb loop (`while not self._can_allocate(...)`, line 726), bounded
by fuel; the loop exits when allocation is possible or `curscope` became
`None`. -/
def climb (ctx : BufCtx) : Nat → ClimbState → ClimbState
  | 0, cs => cs
  | fuel + 1, cs =>
    if ctx.canAlloc cs then cs
    else
      match cs.scope with
      | none => cs
      | some _ => climb ctx fuel (climbStep ctx cs)

/-! ## Dominator / post-dominator search (lines 1021-1055) -/

/-- The two fatal conditions of `_get_dominator_and_postdominator`
(`NotImplementedError`, lines 1043 and 1049), each carrying the offending
buffer's name. -/
inductive DomErr where
  | unresolvableDom (dataName : Nat)
  | unresolvablePostdom (dataName : Nat)
  deriving DecidableEq, Repr

/-- Models `all(start ∈ alldoms[n] for n in states)` after the reflexive insertions
of lines 1036-1038 (`alldoms[state].add(state)`), i.e. the negation of the
`while` guard of line 1041. -/
def domCovered (alldoms : Nat → Nat → Bool) (states : List Nat) (cand : Nat) : Bool :=
  states.all (fun n => alldoms n cand || n == cand)

/-- The dominator-raising loop (lines 1041-1044): climb the immediate
dominators of the first access state until every access state is dominated;
raise (naming the buffer) when the chain reaches a self-referential
immediate dominator first.  `none` models running out of fuel, which the
Python loop would turn into non-termination. -/
def findDominator (idom : Nat → Nat) (alldoms : Nat → Nat → Bool)
    (states : List Nat) (dataName : Nat) :
    Nat → Nat → Option (Except DomErr Nat)
  | 0, _ => none
  | fuel + 1, cur =>
    if domCovered alldoms states cur then some (Except.ok cur)
    else if idom cur == cur then
      some (Except.error (DomErr.unresolvableDom dataName))
    else findDominator idom alldoms states dataName fuel (idom cur)

/-- The post-dominator-raising loop (lines 1046-1050). -/
def findPostdominator (ipostdom : Nat → Nat) (allpostdoms : Nat → Nat → Bool)
    (states : List Nat) (dataName : Nat) :
    Nat → Nat → Option (Except DomErr Nat)
  | 0, _ => none
  | fuel + 1, cur =>
    if domCovered allpostdoms states cur then some (Except.ok cur)
    else if ipostdom cur == cur then
      some (Except.error (DomErr.unresolvablePostdom dataName))
    else findPostdominator ipostdom allpostdoms states dataName fuel (ipostdom cur)

/-- Models `_get_dominator_and_postdominator(sdfg, accesses)`: from the access
states (in order), find the closest common dominator of the first state and
the closest common post-dominator of the last state. -/
def getDomAndPostdom (ctx : BufCtx) (states : List Nat) :
    Option (Except DomErr (Nat × Nat)) :=
  match states with
  | [] => none  -- `accesses[0]` would raise IndexError; never called so
  | s0 :: rest =>
    match findDominator ctx.idom ctx.alldoms (s0 :: rest) ctx.name ctx.domFuel s0 with
    | none => none
    | some (Except.error e) => some (Except.error e)
    | some (Except.ok startSt) =>
      match findPostdominator ctx.ipostdom ctx.allpostdoms (s0 :: rest) ctx.name
          ctx.domFuel ((s0 :: rest).getLast (List.cons_ne_nil s0 rest)) with
      | none => none
      | some (Except.error e) => some (Except.error e)
      | some (Except.ok endSt) => some (Except.ok (startSt, endSt))

/-! ## The per-buffer body of `determine_allocation_lifetime` (lines 568-796) -/

/-- The scope and SDFG left by the allocatability climb: a `None` scope
falls back to the top-level SDFG (line 748-749), and the current SDFG is
read by the `where_allocated` updates of lines 767 and 793-796. -/
def climbedScope (ctx : BufCtx) (aScope : ScopeVal) (aState : Option Nat) :
    ScopeVal × Nat :=
  let cFinal := climb ctx ctx.climbFuel ⟨some aScope, aState, some ctx.sdfgId⟩
  (cFinal.scope.getD (ScopeVal.sdfgScope ctx.topId), cFinal.sdfg.getD ctx.sdfgId)

/-- Models `isinstance(curscope, nodes.EntryNode)` (line 754). -/
def ScopeVal.isEntry : ScopeVal → Bool
  | ScopeVal.entryScope _ => true
  | _ => false

/-- One iteration of the loop over `top_sdfg.arrays_recursive(...)`
(lines 568-796) for a single data descriptor: the `to_allocate` and
`statestruct` entries it appends and the `where_allocated` record it makes.
`none` models non-termination of the unbounded Python loops (never reached
with enough fuel); `Except.error` models the `NotImplementedError` raised
by the dominator search. -/
def determineBufferAllocation (ctx : BufCtx) : Option (Except DomErr BufPlan) :=
  if !ctx.topTransient then some (Except.ok emptyPlan)
  else if ctx.isConstant then
    -- Constants do not need to be allocated (lines 577-579)
    some (Except.ok emptyPlan)
  else
    -- lines 593-594: `.get(name, [(None, None)])[0]` and `[-1]`
    let first := ctx.instances.head?
    let firstSt := first.map Prod.fst
    let firstNd := first.map (fun p => NodeRef.instN p.2)
    let lastI := ctx.instances.getLast?
    let lastSt := lastI.map Prod.fst
    let lastNd := lastI.map (fun p => NodeRef.instN p.2)
    if ctx.topLifetime == AllocationLifetime.Persistent
        || ctx.topLifetime == AllocationLifetime.External then
      -- Persistent memory lives in the library state structure (lines 597-612)
      if first.isNone then some (Except.ok emptyPlan)
      else
        some (Except.ok
          { actions := [(some (ScopeVal.sdfgScope ctx.topId),
              ⟨ctx.sdfgId, firstSt, firstNd, true, true, true⟩)],
            structEntries :=
              -- If thread-local, skip struct entry (line 607)
              if ctx.topStorage != StorageType.CPU_ThreadLocal then
                [(ctx.sdfgId, ctx.name)]
              else [],
            whereAlloc := some ctx.topId })
    else if ctx.topLifetime == AllocationLifetime.Global then
      -- Global memory is allocated at program start (lines 613-627)
      if first.isNone then some (Except.ok emptyPlan)
      else
        some (Except.ok
          { actions := [(some (ScopeVal.sdfgScope ctx.topId),
              ⟨ctx.sdfgId, firstSt, firstNd, true, true, true⟩)],
            structEntries := [(ctx.sdfgId, ctx.name)],
            whereAlloc := some ctx.topId })
    else
      match scopeCandidate ctx with
      | none => some (Except.ok emptyPlan)  -- line 718-719
      | some (aScope, aState) =>
        let cl := climbedScope ctx aScope aState
        let curscope := cl.1
        let cursdfg := cl.2
        if !curscope.isEntry && ctx.nonfreeDepends then
          if firstSt != lastSt then
            if ctx.isView then
              -- A view gets "allocated" everywhere it appears (lines 763-768)
              some (Except.ok
                { actions := ctx.instances.flatMap (fun p =>
                    [(some (ScopeVal.stateScope p.1),
                      ⟨ctx.sdfgId, some p.1, some (NodeRef.instN p.2), false, true, false⟩),
                     (some (ScopeVal.stateScope p.1),
                      ⟨ctx.sdfgId, some p.1, some (NodeRef.instN p.2), false, false, true⟩)]),
                  structEntries := [],
                  whereAlloc := some cursdfg })
            else if ctx.instUnreachable then
              -- find common dominator / post-dominator (lines 770-786)
              match getDomAndPostdom ctx (ctx.instances.map Prod.fst) with
              | none => none
              | some (Except.error e) => some (Except.error e)
              | some (Except.ok (ds, de)) =>
                some (Except.ok
                  { actions :=
                      [(some curscope,
                        ⟨ctx.sdfgId, none, some NodeRef.freshN, true, false, false⟩),
                       (some (ScopeVal.stateScope ds),
                        ⟨ctx.sdfgId, some ds, firstNd, false, true, false⟩),
                       (some (ScopeVal.stateScope de),
                        ⟨ctx.sdfgId, some de, lastNd, false, false, true⟩)],
                    structEntries := [],
                    whereAlloc := some cursdfg })
            else
              -- declare at curscope, allocate at first, deallocate at last
              -- (lines 777-786)
              some (Except.ok
                { actions :=
                    [(some curscope,
                      ⟨ctx.sdfgId, firstSt, firstNd, true, false, false⟩),
                     (firstSt.map ScopeVal.stateScope,
                      ⟨ctx.sdfgId, firstSt, firstNd, false, true, false⟩),
                     (lastSt.map ScopeVal.stateScope,
                      ⟨ctx.sdfgId, lastSt, lastNd, false, false, true⟩)],
                  structEntries := [],
                  whereAlloc := some cursdfg })
          else
            -- single declare+allocate+deallocate at the first state
            -- (lines 787-790; `curscope` is rebound to the first state)
            some (Except.ok
              { actions := [(firstSt.map ScopeVal.stateScope,
                  ⟨ctx.sdfgId, firstSt, firstNd, true, true, true⟩)],
                structEntries := [],
                whereAlloc := some cursdfg })
        else
          -- line 791-792
          some (Except.ok
            { actions := [(some curscope,
                ⟨ctx.sdfgId, firstSt, firstNd, true, true, true⟩)],
              structEntries := [],
              whereAlloc := some (match curscope with
                                  | ScopeVal.sdfgScope d => d
                                  | _ => cursdfg) })

/-- Number of actions of a plan carrying the allocate flag. -/
def allocCount (p : BufPlan) : Nat :=
  (p.actions.filter (fun a => a.2.alloc)).length

/-- Number of actions of a plan carrying the deallocate flag. -/
def deallocCount (p : BufPlan) : Nat :=
  (p.actions.filter (fun a => a.2.dealloc)).length

/-- A small concrete planner context used to instantiate theorems. -/
def sampleCtx : BufCtx where
  topId := 0
  sdfgId := 1
  name := 7
  topTransient := true
  topStorage := StorageType.CPU_Heap
  topLifetime := AllocationLifetime.Scope
  isConstant := false
  isView := false
  instances := []
  isShared := false
  stateAccess := []
  edgeUse := false
  regionUse := false
  occs := []
  scopeParent := fun _ => none
  entryInState := fun _ _ => false
  canAlloc := fun _ => true
  entryParent := fun _ => none
  stateSdfg := fun _ => 1
  sdfgParent := fun _ => none
  climbFuel := 4
  lcaFuel := 4
  nonfreeDepends := false
  instUnreachable := false
  domFuel := 4
  idom := fun s => s
  alldoms := fun _ _ => false
  ipostdom := fun s => s
  allpostdoms := fun _ _ => false

/-- Once `multistate` is set, the occurrence walk no longer changes its
accumulator (the `break` statements of lines 677 and 689/707). -/
theorem scopeStep_fix (ctx : BufCtx) (acc : ScopeRes) (h : acc.multistate = true) :
    ∀ occs : List (Nat × Option Nat), occs.foldl (scopeStep ctx) acc = acc := by
  intro occs
  induction occs with
  | nil => rfl
  | cons o os ih => simp only [List.foldl_cons, scopeStep, h, if_true, ih]

/-- C2: for every transient buffer whose lifetime is `Persistent`,
`External` or `Global` and that is accessed at least once, the planner
emits its single declare+allocate+deallocate action keyed to the top-level
SDFG and records `where_allocated` as the top-level SDFG, independently of
every other feature of the context (in particular of the nesting depth of
the owning SDFG). -/
theorem persistent_external_global_allocated_at_top (ctx : BufCtx)
    (ht : ctx.topTransient = true) (hc : ctx.isConstant = false)
    (hl : ctx.topLifetime = AllocationLifetime.Persistent ∨
          ctx.topLifetime = AllocationLifetime.External ∨
          ctx.topLifetime = AllocationLifetime.Global)
    (hu : ctx.instances ≠ []) :
    ∃ entries, determineBufferAllocation ctx = some (Except.ok
      { actions := [(some (ScopeVal.sdfgScope ctx.topId),
          ⟨ctx.sdfgId, ctx.instances.head?.map Prod.fst,
           ctx.instances.head?.map (fun p => NodeRef.instN p.2),
           true, true, true⟩)],
        structEntries := entries,
        whereAlloc := some ctx.topId }) := by
  obtain ⟨x, xs, hx⟩ := List.exists_cons_of_ne_nil hu
  rcases hl with hl | hl | hl
  · exact ⟨if ctx.topStorage != StorageType.CPU_ThreadLocal then
        [(ctx.sdfgId, ctx.name)] else [],
      by simp [determineBufferAllocation, hl, ht, hc, hx]⟩
  · exact ⟨if ctx.topStorage != StorageType.CPU_ThreadLocal then
        [(ctx.sdfgId, ctx.name)] else [],
      by simp [determineBufferAllocation, hl, ht, hc, hx]⟩
  · exact ⟨[(ctx.sdfgId, ctx.name)],
      by simp [determineBufferAllocation, hl, ht, hc, hx]⟩

/-- Witness for C2 at a concrete context. -/
theorem persistent_external_global_allocated_at_top_witness :
    ∃ entries, determineBufferAllocation
      { sampleCtx with topLifetime := AllocationLifetime.Persistent,
                       instances := [(2, 3)] } = some (Except.ok
      { actions := [(some (ScopeVal.sdfgScope 0),
          ⟨1, some 2, some (NodeRef.instN 3), true, true, true⟩)],
        structEntries := entries,
        whereAlloc := some 0 }) :=
  persistent_external_global_allocated_at_top
    { sampleCtx with topLifetime := AllocationLifetime.Persistent,
                     instances := [(2, 3)] }
    rfl rfl (Or.inl rfl) (by simp)

/-- C4: a transient `Scope`-lifetime buffer whose name appears among the
free symbols of an inter-state edge or in a control-flow region's
region-level symbol use gets its candidate scope promoted to the owning
SDFG — never a state and never a dataflow scope. -/
theorem scope_symbol_use_promotes_to_sdfg (ctx : BufCtx)
    (hl : ctx.topLifetime = AllocationLifetime.Scope)
    (hsh : ctx.isShared = false)
    (huse : ctx.edgeUse = true ∨ ctx.regionUse = true) :
    scopeCandidate ctx = some (ScopeVal.sdfgScope ctx.sdfgId, none) := by
  have hm0 : (ctx.edgeUse || ctx.regionUse) = true := by
    rcases huse with h | h <;> simp [h]
  have hres : scopeResolve ctx = ⟨none, none, ctx.edgeUse || ctx.regionUse⟩ :=
    scopeStep_fix ctx _ hm0 ctx.occs
  unfold scopeCandidate
  simp [hl, hsh, hres, hm0]

/-- Witness for C4 at a concrete context. -/
theorem scope_symbol_use_promotes_to_sdfg_witness :
    scopeCandidate { sampleCtx with regionUse := true } =
      some (ScopeVal.sdfgScope 1, none) :=
  scope_symbol_use_promotes_to_sdfg { sampleCtx with regionUse := true }
    rfl rfl (Or.inr rfl)

/-- C10: a used transient `Persistent` buffer stored as
`CPU_ThreadLocal` contributes no `statestruct` field, yet still receives
the ordinary single declare+allocate+deallocate action keyed to the
top-level SDFG with `where_allocated` pointing there; with any other
storage class, the `Persistent`/`External`/`Global` branches do append the
buffer's definition to `statestruct`. -/
theorem persistent_threadlocal_not_in_statestruct :
    (∀ ctx : BufCtx, ctx.topTransient = true → ctx.isConstant = false →
      ctx.topLifetime = AllocationLifetime.Persistent →
      ctx.topStorage = StorageType.CPU_ThreadLocal →
      ∀ x xs, ctx.instances = x :: xs →
      determineBufferAllocation ctx = some (Except.ok
        { actions := [(some (ScopeVal.sdfgScope ctx.topId),
            ⟨ctx.sdfgId, some x.1, some (NodeRef.instN x.2), true, true, true⟩)],
          structEntries := [],
          whereAlloc := some ctx.topId })) ∧
    (∀ ctx : BufCtx, ctx.topTransient = true → ctx.isConstant = false →
      (ctx.topLifetime = AllocationLifetime.Persistent ∨
       ctx.topLifetime = AllocationLifetime.External ∨
       ctx.topLifetime = AllocationLifetime.Global) →
      ctx.topStorage ≠ StorageType.CPU_ThreadLocal →
      ∀ plan, determineBufferAllocation ctx = some (Except.ok plan) →
        plan.actions ≠ [] →
        plan.structEntries = [(ctx.sdfgId, ctx.name)]) := by
  constructor
  · intro ctx ht hc hl hs x xs hx
    simp [determineBufferAllocation, ht, hc, hl, hs, hx]
  · intro ctx ht hc hl hs plan hplan hne
    rcases hx : ctx.instances with _ | ⟨x, xs⟩ <;>
      rcases hl with hl | hl | hl <;>
        simp [determineBufferAllocation, ht, hc, hl, hx, bne_iff_ne, hs] at hplan <;>
        first
          | (rw [← hplan] at hne; exact absurd rfl hne)
          | rw [← hplan]

/-- Witness for C10 at concrete contexts. -/
theorem persistent_threadlocal_not_in_statestruct_witness :
    determineBufferAllocation
      { sampleCtx with topLifetime := AllocationLifetime.Persistent,
                       topStorage := StorageType.CPU_ThreadLocal,
                       instances := [(2, 3)] } = some (Except.ok
      { actions := [(some (ScopeVal.sdfgScope 0),
          ⟨1, some 2, some (NodeRef.instN 3), true, true, true⟩)],
        structEntries := [],
        whereAlloc := some 0 }) :=
  persistent_threadlocal_not_in_statestruct.1
    { sampleCtx with topLifetime := AllocationLifetime.Persistent,
                     topStorage := StorageType.CPU_ThreadLocal,
                     instances := [(2, 3)] }
    rfl rfl rfl rfl (2, 3) [] rfl

/-- C3: when the dominator (resp. post-dominator) search meets a
candidate that is its own immediate dominator while some occurrence state
still lacks it as a dominator, the search returns the fatal
`UnresolvableLifetimeError`-style failure carrying the offending buffer's
name (and `getDomAndPostdom` propagates it); and whenever the immediate
dominators strictly decrease some rank (as a well-formed dominator tree
does), the search terminates instead of looping. -/
theorem dominator_nonconvergence_raises :
    (∀ (idom : Nat → Nat) (alldoms : Nat → Nat → Bool) (states : List Nat)
       (dataName fuel cur : Nat),
       domCovered alldoms states cur = false → idom cur = cur →
       findDominator idom alldoms states dataName (fuel + 1) cur =
         some (Except.error (DomErr.unresolvableDom dataName))) ∧
    (∀ (ipostdom : Nat → Nat) (allpostdoms : Nat → Nat → Bool) (states : List Nat)
       (dataName fuel cur : Nat),
       domCovered allpostdoms states cur = false → ipostdom cur = cur →
       findPostdominator ipostdom allpostdoms states dataName (fuel + 1) cur =
         some (Except.error (DomErr.unresolvablePostdom dataName))) ∧
    (∀ (ctx : BufCtx) (s0 : Nat) (rest : List Nat),
       0 < ctx.domFuel →
       domCovered ctx.alldoms (s0 :: rest) s0 = false → ctx.idom s0 = s0 →
       getDomAndPostdom ctx (s0 :: rest) =
         some (Except.error (DomErr.unresolvableDom ctx.name))) ∧
    (∀ (idom : Nat → Nat) (alldoms : Nat → Nat → Bool) (states : List Nat)
       (dataName : Nat) (rank : Nat → Nat),
       (∀ b, idom b ≠ b → rank (idom b) < rank b) →
       ∀ (fuel cur : Nat), rank cur < fuel →
       (findDominator idom alldoms states dataName fuel cur).isSome) := by
  have herr : ∀ (idom : Nat → Nat) (alldoms : Nat → Nat → Bool)
      (states : List Nat) (dataName fuel cur : Nat),
      domCovered alldoms states cur = false → idom cur = cur →
      findDominator idom alldoms states dataName (fuel + 1) cur =
        some (Except.error (DomErr.unresolvableDom dataName)) := by
    intro idom alldoms states dataName fuel cur h1 h2
    simp [findDominator, h1, h2]
  refine ⟨herr, ?_, ?_, ?_⟩
  · intro ipostdom allpostdoms states dataName fuel cur h1 h2
    simp [findPostdominator, h1, h2]
  · intro ctx s0 rest hf h1 h2
    obtain ⟨fuel, hfe⟩ : ∃ fuel, ctx.domFuel = fuel + 1 :=
      ⟨ctx.domFuel - 1, by omega⟩
    simp only [getDomAndPostdom, hfe,
      herr ctx.idom ctx.alldoms (s0 :: rest) ctx.name fuel s0 h1 h2]
  · intro idom alldoms states dataName rank hdec fuel
    induction fuel with
    | zero => intro cur h; exact absurd h (Nat.not_lt_zero _)
    | succ fuel ih =>
      intro cur h
      by_cases hcov : domCovered alldoms states cur = true
      · simp [findDominator, hcov]
      · by_cases heq : idom cur = cur
        · simp [findDominator, hcov, heq]
        · have hlt := hdec cur heq
          simp only [findDominator, hcov, Bool.false_eq_true, if_false,
            beq_iff_eq, heq]
          exact ih (idom cur) (by omega)

/-- Witness for C3 at concrete inputs: with two mutually undominated states
and identity immediate dominators, the search fails at once naming the
buffer, and with a strictly decreasing dominator chain it terminates. -/
theorem dominator_nonconvergence_raises_witness :
    findDominator (fun s => s) (fun _ _ => false) [0, 1] 7 1 0 =
      some (Except.error (DomErr.unresolvableDom 7)) ∧
    getDomAndPostdom { sampleCtx with domFuel := 1 } [0, 1] =
      some (Except.error (DomErr.unresolvableDom 7)) ∧
    (findDominator (fun s => s - 1) (fun _ _ => false) [0, 1] 7 4 3).isSome := by
  refine ⟨?_, ?_, ?_⟩
  · exact dominator_nonconvergence_raises.1 (fun s => s) (fun _ _ => false)
      [0, 1] 7 0 0 (by decide) rfl
  · exact dominator_nonconvergence_raises.2.2.1 { sampleCtx with domFuel := 1 }
      0 [1] (by decide) (by decide) rfl
  · exact dominator_nonconvergence_raises.2.2.2 (fun s => s - 1)
      (fun _ _ => false) [0, 1] 7 (fun b => b)
      (fun b hb => by dsimp only at hb ⊢; omega) 4 3 (by decide)

/-! ## Counting allocate/deallocate actions (claim C1) -/

/-- Whether the buffer takes the view branch of lines 763-768: a View whose
(non-Persistent/External/Global) lifetime spans states — the resolved scope
is not a dataflow entry node, the descriptor depends on non-free symbols,
and the first and last occurrence states differ. -/
def viewBranchSpanning (ctx : BufCtx) : Bool :=
  if ctx.topLifetime == AllocationLifetime.Persistent
      || ctx.topLifetime == AllocationLifetime.External
      || ctx.topLifetime == AllocationLifetime.Global then false
  else
    match scopeCandidate ctx with
    | none => false
    | some (aScope, aState) =>
      !(climbedScope ctx aScope aState).1.isEntry && ctx.nonfreeDepends
        && (ctx.instances.head?.map Prod.fst != ctx.instances.getLast?.map Prod.fst)
        && ctx.isView

/-- Whether the per-buffer pass emits no entries at all — the `continue`
paths of lines 602-604, 619-621, 640-642 and 718-719:
Persistent/External/Global buffers are skipped exactly when they have no
access instance, every other lifetime exactly when no candidate scope
arises.  Note the branches use different notions of use: the candidate
computation consults access nodes by exact data name (`State`, line 649) or
by root data name plus edge/region symbol uses (`Scope`, lines 668-683),
neither of which coincides with the access-instance scan of lines 552-563
on nested data. -/
def plannedNoActions (ctx : BufCtx) : Bool :=
  if ctx.topLifetime == AllocationLifetime.Persistent
      || ctx.topLifetime == AllocationLifetime.External
      || ctx.topLifetime == AllocationLifetime.Global then
    ctx.instances.isEmpty
  else
    (scopeCandidate ctx).isNone

theorem allocCount_empty : allocCount emptyPlan = 0 := rfl

theorem deallocCount_empty : deallocCount emptyPlan = 0 := rfl

/-- Each occurrence of a view contributes one allocate-flag pair entry. -/
theorem viewActions_counts (d : Nat) :
    ∀ instances : List (Nat × Nat),
      ((instances.flatMap (fun p =>
        [(some (ScopeVal.stateScope p.1),
          (⟨d, some p.1, some (NodeRef.instN p.2), false, true, false⟩ : AllocAction)),
         (some (ScopeVal.stateScope p.1),
          (⟨d, some p.1, some (NodeRef.instN p.2), false, false, true⟩ : AllocAction))])).filter
        (fun a => a.2.alloc)).length = instances.length ∧
      ((instances.flatMap (fun p =>
        [(some (ScopeVal.stateScope p.1),
          (⟨d, some p.1, some (NodeRef.instN p.2), false, true, false⟩ : AllocAction)),
         (some (ScopeVal.stateScope p.1),
          (⟨d, some p.1, some (NodeRef.instN p.2), false, false, true⟩ : AllocAction))])).filter
        (fun a => a.2.dealloc)).length = instances.length := by
  intro instances
  induction instances with
  | nil => exact ⟨rfl, rfl⟩
  | cons p ps ih =>
    refine ⟨?_, ?_⟩ <;>
      (simp [List.flatMap_cons, List.filter_append, ih.1, ih.2]; try omega)

/-- The multistate flag of the occurrence walk is monotone. -/
theorem scopeResolve_multistate_mono (ctx : BufCtx)
    (h : (ctx.edgeUse || ctx.regionUse) = true) :
    (scopeResolve ctx).multistate = true := by
  rw [scopeResolve, scopeStep_fix ctx _ h ctx.occs]
  exact h

/-- After any non-trivial step the walk carries a scope or the multistate
flag. -/
theorem scopeStep_inv (ctx : BufCtx) (acc : ScopeRes) (occ : Nat × Option Nat) :
    (scopeStep ctx acc occ).multistate = true ∨
    ((scopeStep ctx acc occ).curscope).isSome = true ∨
    (scopeStep ctx acc occ) = acc := by
  unfold scopeStep
  by_cases hm : acc.multistate = true
  · simp [hm]
  by_cases hs : acc.curstate.isSome ∧ acc.curstate ≠ some occ.1
  · simp [hm, hs]
  simp only [hm, hs, Bool.false_eq_true, if_false]
  rcases hcs : acc.curscope with _ | cur
  · simp
  · rcases h2 : occ.2 with _ | e
    · simp
    · rcases cur with s | e2 <;> (simp; try split) <;> simp

theorem scopeResolve_inv (ctx : BufCtx) (h : ctx.occs ≠ []) :
    (scopeResolve ctx).multistate = true ∨
    ((scopeResolve ctx).curscope).isSome = true := by
  rw [scopeResolve]
  -- fold preserves `multistate ∨ curscope.isSome`, and one step establishes it
  have pres : ∀ (occs : List (Nat × Option Nat)) (acc : ScopeRes),
      acc.multistate = true ∨ acc.curscope.isSome = true →
      (occs.foldl (scopeStep ctx) acc).multistate = true ∨
      ((occs.foldl (scopeStep ctx) acc).curscope).isSome = true := by
    intro occs
    induction occs with
    | nil => intro acc hacc; simpa using hacc
    | cons o os ih =>
      intro acc hacc
      rw [List.foldl_cons]
      rcases scopeStep_inv ctx acc o with hh | hh | hh
      · exact ih _ (Or.inl hh)
      · exact ih _ (Or.inr hh)
      · refine ih _ ?_
        rw [hh]
        exact hacc
  rcases hocc : ctx.occs with _ | ⟨o, os⟩
  · exact absurd hocc h
  · rw [List.foldl_cons]
    by_cases hb : (ctx.edgeUse || ctx.regionUse) = true
    · -- the initial accumulator is already multistate; the step keeps it
      refine pres os _ (Or.inl ?_)
      rw [scopeStep]
      simp [hb]
    · -- otherwise the first step records a scope
      have hb' : (ctx.edgeUse || ctx.regionUse) = false := by simpa using hb
      refine pres os _ (Or.inr ?_)
      rw [scopeStep]
      simp only [hb', Bool.false_eq_true, if_false]
      rcases h2 : o.2 with _ | e <;> simp [h2]

/-- Once a candidate scope exists, the plan of a non-Persistent,
non-External, non-Global buffer carries exactly one allocate and one
deallocate action — except through the view branch, which emits one pair
per occurrence. -/
theorem counts_after_candidate (ctx : BufCtx) (aScope : ScopeVal)
    (aState : Option Nat) (plan : BufPlan)
    (ht : ctx.topTransient = true) (hc : ctx.isConstant = false)
    (hl1 : ctx.topLifetime ≠ AllocationLifetime.Persistent)
    (hl2 : ctx.topLifetime ≠ AllocationLifetime.External)
    (hl3 : ctx.topLifetime ≠ AllocationLifetime.Global)
    (hcand : scopeCandidate ctx = some (aScope, aState))
    (hok : determineBufferAllocation ctx = some (Except.ok plan)) :
    (viewBranchSpanning ctx = true →
      allocCount plan = ctx.instances.length ∧
      deallocCount plan = ctx.instances.length) ∧
    (viewBranchSpanning ctx = false →
      allocCount plan = 1 ∧ deallocCount plan = 1) := by
  have hb1 : (ctx.topLifetime == AllocationLifetime.Persistent) = false :=
    beq_eq_false_iff_ne.mpr hl1
  have hb2 : (ctx.topLifetime == AllocationLifetime.External) = false :=
    beq_eq_false_iff_ne.mpr hl2
  have hb3 : (ctx.topLifetime == AllocationLifetime.Global) = false :=
    beq_eq_false_iff_ne.mpr hl3
  have hview : viewBranchSpanning ctx =
      (!(climbedScope ctx aScope aState).1.isEntry && ctx.nonfreeDepends
        && (ctx.instances.head?.map Prod.fst != ctx.instances.getLast?.map Prod.fst)
        && ctx.isView) := by
    rw [viewBranchSpanning]
    simp [hb1, hb2, hb3, hcand]
  rw [determineBufferAllocation] at hok
  simp only [ht, hc, hb1, hb2, hb3, hcand, Bool.not_true, Bool.false_eq_true,
    if_false, Bool.or_self, Bool.false_or] at hok
  by_cases g1 : (!(climbedScope ctx aScope aState).1.isEntry && ctx.nonfreeDepends) = true
  · simp only [g1, if_true] at hok
    by_cases g2 : ((ctx.instances.head?.map Prod.fst
        != ctx.instances.getLast?.map Prod.fst)) = true
    · simp only [g2, if_true] at hok
      by_cases g3 : ctx.isView = true
      · -- the view branch
        simp only [g3, if_true, Option.some.injEq, Except.ok.injEq] at hok
        subst hok
        constructor
        · intro _
          have hcounts := viewActions_counts ctx.sdfgId ctx.instances
          exact ⟨hcounts.1, hcounts.2⟩
        · intro hv
          rw [hview, g1] at hv
          simp only [g2, g3, Bool.true_and, Bool.and_true] at hv
          cases hv
      · have g3f : ctx.isView = false := by simpa using g3
        have hvf : viewBranchSpanning ctx = false := by
          rw [hview, g3f]
          simp
        simp only [g3f, Bool.false_eq_true, if_false] at hok
        refine ⟨fun hv => absurd hv (by simp [hvf]), fun _ => ?_⟩
        by_cases g4 : ctx.instUnreachable = true
        · simp only [g4, if_true] at hok
          rcases hdom : getDomAndPostdom ctx (ctx.instances.map Prod.fst) with _ | res
          · rw [hdom] at hok; cases hok
          · rcases res with e | ⟨ds, de⟩
            · rw [hdom] at hok; cases hok
            · rw [hdom] at hok
              simp only [Option.some.injEq, Except.ok.injEq] at hok
              subst hok
              exact ⟨rfl, rfl⟩
        · simp only [g4, Bool.false_eq_true, if_false, Option.some.injEq,
            Except.ok.injEq] at hok
          subst hok
          exact ⟨rfl, rfl⟩
    · have g2f : (ctx.instances.head?.map Prod.fst
          != ctx.instances.getLast?.map Prod.fst) = false := by simpa using g2
      have hvf : viewBranchSpanning ctx = false := by
        rw [hview, g2f]
        simp
      simp only [g2f, Bool.false_eq_true, if_false, Option.some.injEq,
        Except.ok.injEq] at hok
      subst hok
      exact ⟨fun hv => absurd hv (by simp [hvf]), fun _ => ⟨rfl, rfl⟩⟩
  · have g1f : (!(climbedScope ctx aScope aState).1.isEntry
        && ctx.nonfreeDepends) = false := by simpa using g1
    have hvf : viewBranchSpanning ctx = false := by
      rw [hview, g1f]
      simp
    simp only [g1f, Bool.false_eq_true, if_false, Option.some.injEq,
      Except.ok.injEq] at hok
    subst hok
    exact ⟨fun hv => absurd hv (by simp [hvf]), fun _ => ⟨rfl, rfl⟩⟩

/-- C1 (amended): for a transient, non-constant buffer the successful plan
carries exactly one allocate and one deallocate action unless the pass
skips the buffer entirely (then it carries none) — except that a View with
branch-spanning lifetime receives one allocate and one deallocate action
per occurrence.  The skip condition is per lifetime, each branch using its
own notion of use: Persistent/External/Global buffers, shared transients
and SDFG-lifetime buffers are skipped exactly when they have no access
instance; a non-shared State-lifetime buffer exactly when no state holds an
access node of its exact data name; and a non-shared Scope-lifetime buffer
exactly when it has no access-node occurrence (matched by root data name),
no inter-state-edge use and no region-level symbol use.  These notions
disagree with the access-instance list on nested data and on edge/region
symbol uses, so a buffer with no access instance can still receive its
allocate/deallocate pair and an edge-only State-lifetime buffer receives
none. -/
theorem alloc_dealloc_exactly_once (ctx : BufCtx) (plan : BufPlan)
    (ht : ctx.topTransient = true) (hc : ctx.isConstant = false)
    (hok : determineBufferAllocation ctx = some (Except.ok plan)) :
    (plannedNoActions ctx = true →
      allocCount plan = 0 ∧ deallocCount plan = 0) ∧
    (plannedNoActions ctx = false →
      (viewBranchSpanning ctx = true →
        allocCount plan = ctx.instances.length ∧
        deallocCount plan = ctx.instances.length) ∧
      (viewBranchSpanning ctx = false →
        allocCount plan = 1 ∧ deallocCount plan = 1)) ∧
    ((ctx.topLifetime = AllocationLifetime.Persistent ∨
      ctx.topLifetime = AllocationLifetime.External ∨
      ctx.topLifetime = AllocationLifetime.Global ∨
      ctx.isShared = true ∨ ctx.topLifetime = AllocationLifetime.SDFG) →
      (plannedNoActions ctx = true ↔ ctx.instances = [])) ∧
    (ctx.isShared = false → ctx.topLifetime = AllocationLifetime.State →
      (plannedNoActions ctx = true ↔ ctx.stateAccess = [])) ∧
    (ctx.isShared = false → ctx.topLifetime = AllocationLifetime.Scope →
      (plannedNoActions ctx = true ↔
        (ctx.occs = [] ∧ ctx.edgeUse = false ∧ ctx.regionUse = false))) := by
  refine ⟨?_, ?_, ?_, ?_, ?_⟩
  · -- a skipped buffer contributes nothing
    intro hskip
    by_cases hpeg : (ctx.topLifetime == AllocationLifetime.Persistent
        || ctx.topLifetime == AllocationLifetime.External
        || ctx.topLifetime == AllocationLifetime.Global) = true
    · have hnil : ctx.instances = [] := by
        rw [plannedNoActions, if_pos hpeg] at hskip
        simpa using hskip
      rcases Bool.or_eq_true_iff.mp hpeg with h12 | h3
      · rcases Bool.or_eq_true_iff.mp h12 with h1 | h2
        · have hl := beq_iff_eq.mp h1
          simp [determineBufferAllocation, ht, hc, hl, hnil] at hok
          subst hok
          exact ⟨rfl, rfl⟩
        · have hl := beq_iff_eq.mp h2
          simp [determineBufferAllocation, ht, hc, hl, hnil] at hok
          subst hok
          exact ⟨rfl, rfl⟩
      · have hl := beq_iff_eq.mp h3
        simp [determineBufferAllocation, ht, hc, hl, hnil] at hok
        subst hok
        exact ⟨rfl, rfl⟩
    · have hpegf : (ctx.topLifetime == AllocationLifetime.Persistent
          || ctx.topLifetime == AllocationLifetime.External
          || ctx.topLifetime == AllocationLifetime.Global) = false := by
        simpa using hpeg
      obtain ⟨⟨hb1, hb2⟩, hb3⟩ :
          ((ctx.topLifetime == AllocationLifetime.Persistent) = false ∧
           (ctx.topLifetime == AllocationLifetime.External) = false) ∧
          (ctx.topLifetime == AllocationLifetime.Global) = false := by
        constructor
        · constructor <;> (rcases hx : (ctx.topLifetime == AllocationLifetime.Persistent) <;>
            rcases hy : (ctx.topLifetime == AllocationLifetime.External) <;>
            simp [hx, hy] at hpegf ⊢)
        · rcases hz : (ctx.topLifetime == AllocationLifetime.Global) <;>
            simp [hz] at hpegf ⊢
      have hcand : scopeCandidate ctx = none := by
        rw [plannedNoActions, if_neg (by simp [hpegf])] at hskip
        exact Option.isNone_iff_eq_none.mp hskip
      simp [determineBufferAllocation, ht, hc, hb1, hb2, hb3, hcand] at hok
      subst hok
      exact ⟨rfl, rfl⟩
  · -- a planned buffer gets its pair (or one pair per view occurrence)
    intro hact
    by_cases hpeg : (ctx.topLifetime == AllocationLifetime.Persistent
        || ctx.topLifetime == AllocationLifetime.External
        || ctx.topLifetime == AllocationLifetime.Global) = true
    · have hne : ctx.instances ≠ [] := by
        rw [plannedNoActions, if_pos hpeg] at hact
        simpa using hact
      obtain ⟨x, xs, hcons⟩ := List.exists_cons_of_ne_nil hne
      have hvf : viewBranchSpanning ctx = false := by
        rw [viewBranchSpanning, if_pos hpeg]
      have hdone : allocCount plan = 1 ∧ deallocCount plan = 1 := by
        rcases Bool.or_eq_true_iff.mp hpeg with h12 | h3
        · rcases Bool.or_eq_true_iff.mp h12 with h1 | h2
          · have hl := beq_iff_eq.mp h1
            simp [determineBufferAllocation, ht, hc, hl, hcons] at hok
            subst hok
            exact ⟨rfl, rfl⟩
          · have hl := beq_iff_eq.mp h2
            simp [determineBufferAllocation, ht, hc, hl, hcons] at hok
            subst hok
            exact ⟨rfl, rfl⟩
        · have hl := beq_iff_eq.mp h3
          simp [determineBufferAllocation, ht, hc, hl, hcons] at hok
          subst hok
          exact ⟨rfl, rfl⟩
      exact ⟨fun hv => absurd hv (by simp [hvf]), fun _ => hdone⟩
    · have hpegf : (ctx.topLifetime == AllocationLifetime.Persistent
          || ctx.topLifetime == AllocationLifetime.External
          || ctx.topLifetime == AllocationLifetime.Global) = false := by
        simpa using hpeg
      rcases hcand : scopeCandidate ctx with _ | ⟨aScope, aState⟩
      · exfalso
        rw [plannedNoActions, if_neg (by simp [hpegf]), hcand] at hact
        cases hact
      · have hl1 : ctx.topLifetime ≠ AllocationLifetime.Persistent := by
          intro h
          rw [h] at hpegf
          simp at hpegf
        have hl2 : ctx.topLifetime ≠ AllocationLifetime.External := by
          intro h
          rw [h] at hpegf
          simp at hpegf
        have hl3 : ctx.topLifetime ≠ AllocationLifetime.Global := by
          intro h
          rw [h] at hpegf
          simp at hpegf
        exact counts_after_candidate ctx aScope aState plan ht hc hl1 hl2 hl3
          hcand hok
  · -- Persistent/External/Global, shared and SDFG: skip ⟺ no access instance
    intro hcase
    rcases hcase with hl | hl | hl | hsh | hl
    · simp [plannedNoActions, hl, List.isEmpty_iff]
    · simp [plannedNoActions, hl, List.isEmpty_iff]
    · simp [plannedNoActions, hl, List.isEmpty_iff]
    · rcases hlt : ctx.topLifetime <;>
        rcases hi : ctx.instances with _ | ⟨x, xs⟩ <;>
          simp [plannedNoActions, hlt, scopeCandidate, hsh, hi]
    · rcases hi : ctx.instances with _ | ⟨x, xs⟩ <;>
        simp [plannedNoActions, hl, scopeCandidate, hi]
  · -- non-shared State: skip ⟺ no state holds an access node of this name
    intro hshf hlt
    rcases hsa : ctx.stateAccess with _ | ⟨s, ss⟩
    · simp [plannedNoActions, hlt, scopeCandidate, hshf, hsa]
    · rcases ss with _ | ⟨s2, ss2⟩ <;>
        simp [plannedNoActions, hlt, scopeCandidate, hshf, hsa]
  · -- non-shared Scope: skip ⟺ no occurrence, no edge use, no region use
    intro hshf hlt
    constructor
    · intro hskip
      have hcand : scopeCandidate ctx = none := by
        rw [plannedNoActions, if_neg (by simp [hlt])] at hskip
        exact Option.isNone_iff_eq_none.mp hskip
      have hms : (scopeResolve ctx).multistate = false := by
        rcases hmt : (scopeResolve ctx).multistate
        · rfl
        · exfalso
          have h2 : scopeCandidate ctx =
              some (ScopeVal.sdfgScope ctx.sdfgId, none) := by
            simp [scopeCandidate, hshf, hlt, hmt]
          rw [hcand] at h2
          cases h2
      have hcs : (scopeResolve ctx).curscope = none := by
        rcases hcs2 : (scopeResolve ctx).curscope with _ | c
        · rfl
        · exfalso
          rcases c with e | s
          · have h2 : scopeCandidate ctx =
                some (ScopeVal.entryScope e, (scopeResolve ctx).curstate) := by
              simp [scopeCandidate, hshf, hlt, hms, hcs2]
            rw [hcand] at h2
            cases h2
          · have h2 : scopeCandidate ctx =
                some (ScopeVal.stateScope s, (scopeResolve ctx).curstate) := by
              simp [scopeCandidate, hshf, hlt, hms, hcs2]
            rw [hcand] at h2
            cases h2
      have hereg : (ctx.edgeUse || ctx.regionUse) = false := by
        rcases hbe : (ctx.edgeUse || ctx.regionUse)
        · rfl
        · exfalso
          have := scopeResolve_multistate_mono ctx hbe
          rw [hms] at this
          cases this
      have hocc : ctx.occs = [] := by
        rcases ho : ctx.occs with _ | ⟨o, os⟩
        · rfl
        · exfalso
          rcases scopeResolve_inv ctx (by rw [ho]; simp) with h | h
          · rw [hms] at h
            cases h
          · rw [hcs] at h
            simp at h
      exact ⟨hocc, (Bool.or_eq_false_iff.mp hereg).1,
        (Bool.or_eq_false_iff.mp hereg).2⟩
    · rintro ⟨hocc, hedge, hreg⟩
      have hres : scopeResolve ctx = ⟨none, none, false⟩ := by
        rw [scopeResolve, hocc]
        simp [hedge, hreg]
      simp [plannedNoActions, hlt, scopeCandidate, hshf, hres]

/-- C1, counterexample to the claim as stated: (i) a transient,
non-constant Scope-lifetime buffer with no access instance whatsoever (and
not named in any inter-state edge) — only a region-level symbol use —
receives one allocate and one deallocate action, where the claim promises
none for a never-accessed buffer; (ii) a State-lifetime buffer whose
access nodes are found by the exact-data-name walk of line 649 while the
access-instance list is empty (the nested-data shape, where the scan of
line 554 filters on top-level array names) also receives a pair; and
(iii) a State-lifetime buffer whose only access instances come from
inter-state edges (no access node in any state) receives no actions at
all, where the claim promises exactly one pair for an accessed buffer. -/
theorem region_only_buffer_still_allocated :
    determineBufferAllocation { sampleCtx with regionUse := true } =
      some (Except.ok ⟨[(some (ScopeVal.sdfgScope 1),
        ⟨1, none, none, true, true, true⟩)], [], some 1⟩) ∧
    ({ sampleCtx with regionUse := true } : BufCtx).instances = [] ∧
    ({ sampleCtx with regionUse := true } : BufCtx).edgeUse = false ∧
    allocCount ⟨[(some (ScopeVal.sdfgScope 1),
      ⟨1, none, none, true, true, true⟩)], [], some 1⟩ = 1 ∧
    deallocCount ⟨[(some (ScopeVal.sdfgScope 1),
      ⟨1, none, none, true, true, true⟩)], [], some 1⟩ = 1 ∧
    determineBufferAllocation
      { sampleCtx with topLifetime := AllocationLifetime.State,
                       stateAccess := [4] } =
      some (Except.ok ⟨[(some (ScopeVal.stateScope 4),
        ⟨1, none, none, true, true, true⟩)], [], some 1⟩) ∧
    ({ sampleCtx with topLifetime := AllocationLifetime.State,
                      stateAccess := [4] } : BufCtx).instances = [] ∧
    allocCount ⟨[(some (ScopeVal.stateScope 4),
      ⟨1, none, none, true, true, true⟩)], [], some 1⟩ = 1 ∧
    determineBufferAllocation
      { sampleCtx with topLifetime := AllocationLifetime.State,
                       instances := [(2, 3)] } = some (Except.ok emptyPlan) ∧
    ({ sampleCtx with topLifetime := AllocationLifetime.State,
                      instances := [(2, 3)] } : BufCtx).instances = [(2, 3)] ∧
    allocCount emptyPlan = 0 ∧ deallocCount emptyPlan = 0 :=
  ⟨rfl, rfl, rfl, rfl, rfl, rfl, rfl, rfl, rfl, rfl, rfl, rfl⟩

/-- Witness for C1's amended theorem at a concrete used `SDFG`-lifetime
buffer: exactly one allocate and one deallocate action. -/
theorem alloc_dealloc_exactly_once_witness :
    allocCount ⟨[(some (ScopeVal.sdfgScope 1),
        ⟨1, some 2, some (NodeRef.instN 3), true, true, true⟩)], [], some 1⟩ = 1 ∧
    deallocCount ⟨[(some (ScopeVal.sdfgScope 1),
        ⟨1, some 2, some (NodeRef.instN 3), true, true, true⟩)], [], some 1⟩ = 1 := by
  have h := alloc_dealloc_exactly_once
    { sampleCtx with topLifetime := AllocationLifetime.SDFG,
                     instances := [(2, 3)] }
    ⟨[(some (ScopeVal.sdfgScope 1),
        ⟨1, some 2, some (NodeRef.instN 3), true, true, true⟩)], [], some 1⟩
    rfl rfl rfl
  exact (h.2.1 (by decide)).2 (by decide)

end Frame

namespace ExtMem

/-! ## `generate_external_memory_management` (framecode.py lines 354-404) -/

/-- The slice of a data descriptor read by
`generate_external_memory_management`: storage class, lifetime, symbolic
total size and element byte count (sizes are modelled as naturals). -/
structure ArrayDesc where
  storage : Frame.StorageType
  lifetime : Frame.AllocationLifetime
  totalSize : Nat
  dtypeBytes : Nat
  deriving DecidableEq, Repr

/-- One entry of `sdfg.arrays_recursive()`: (sub-SDFG id, array name,
descriptor), in declaration order. -/
abbrev ArrEntry := Nat × Nat × ArrayDesc

/-- Models `arr.total_size * arr.dtype.bytes` (lines 380 and 401). -/
def entrySize (a : ArrEntry) : Nat := a.2.2.totalSize * a.2.2.dtypeBytes

/-- Models `ext_arrays[storage]` (lines 365-368): the arrays with `External`
lifetime and the given storage class, in declaration order. -/
def extArraysOf (storage : Frame.StorageType) (arrays : List ArrEntry) :
    List ArrEntry :=
  arrays.filter (fun a =>
    a.2.2.lifetime == Frame.AllocationLifetime.External
      && a.2.2.storage == storage)

/-- The value returned by the generated
`__dace_get_external_memory_size_<STORAGE>` function: the accumulation
loop of lines 378-380. -/
def extMemSize (storage : Frame.StorageType) (arrays : List ArrEntry) : Nat :=
  (extArraysOf storage arrays).foldl (fun size a => size + entrySize a) 0

/-- The assignments made by the generated
`__dace_set_external_memory_<STORAGE>` function (lines 397-401): each
external array of the class, with the byte offset from the supplied base
pointer it is bound to, in declaration order. -/
def extMemOffsets (storage : Frame.StorageType) (arrays : List ArrEntry) :
    List ((Nat × Nat) × Nat) :=
  ((extArraysOf storage arrays).foldl
    (fun (acc : List ((Nat × Nat) × Nat) × Nat) a =>
      (acc.1 ++ [((a.1, a.2.1), acc.2)], acc.2 + entrySize a))
    ([], 0)).1

/-- Reference rendering of the offset loop as an explicit recursion
(used to state the prefix-sum property). -/
def offsetsFrom (off : Nat) : List ArrEntry → List ((Nat × Nat) × Nat)
  | [] => []
  | a :: rest => ((a.1, a.2.1), off) :: offsetsFrom (off + entrySize a) rest

theorem foldl_add_size (l : List ArrEntry) :
    ∀ n, l.foldl (fun size a => size + entrySize a) n = n + (l.map entrySize).sum := by
  induction l with
  | nil => intro n; simp
  | cons a rest ih => intro n; simp [ih]; omega

theorem foldl_offsets (l : List ArrEntry) :
    ∀ (acc : List ((Nat × Nat) × Nat)) (off : Nat),
      (l.foldl (fun (acc : List ((Nat × Nat) × Nat) × Nat) a =>
        (acc.1 ++ [((a.1, a.2.1), acc.2)], acc.2 + entrySize a)) (acc, off)).1
      = acc ++ offsetsFrom off l := by
  induction l with
  | nil => intro acc off; simp [offsetsFrom]
  | cons a rest ih => intro acc off; simp [offsetsFrom, ih]

theorem offsetsFrom_length (off : Nat) (l : List ArrEntry) :
    (offsetsFrom off l).length = l.length := by
  induction l generalizing off with
  | nil => rfl
  | cons a rest ih => simp [offsetsFrom, ih]

theorem offsetsFrom_get (l : List ArrEntry) :
    ∀ (off i : Nat) (hi : i < l.length),
      (offsetsFrom off l)[i]? =
        some (((l.get ⟨i, hi⟩).1, (l.get ⟨i, hi⟩).2.1),
          off + ((l.take i).map entrySize).sum) := by
  induction l with
  | nil => intro off i hi; exact absurd hi (Nat.not_lt_zero i)
  | cons a rest ih =>
    intro off i hi
    cases i with
    | zero => simp [offsetsFrom]
    | succ j =>
      have hj : j < rest.length := Nat.lt_of_succ_lt_succ hi
      simp only [offsetsFrom, List.getElem?_cons_succ, List.get_cons_succ,
        List.take_succ_cons, List.map_cons, List.sum_cons]
      rw [ih (off + entrySize a) j hj]
      simp [Nat.add_assoc]

/-- C5: for each storage class, the generated size query returns the
sum of `total_size * dtype.bytes` over the class's external arrays in
declaration order; the pointer-bind function assigns the i-th such array
the prefix-sum byte offset of the arrays before it, in the same order; and
a 4096-byte external array that is alone in its class gets size 4096 and
offset 0. -/
theorem external_memory_size_and_offsets :
    (∀ (storage : Frame.StorageType) (arrays : List ArrEntry),
      extMemSize storage arrays = ((extArraysOf storage arrays).map entrySize).sum) ∧
    (∀ (storage : Frame.StorageType) (arrays : List ArrEntry) (i : Nat)
       (hi : i < (extArraysOf storage arrays).length),
      (extMemOffsets storage arrays)[i]? =
        some ((((extArraysOf storage arrays).get ⟨i, hi⟩).1,
          ((extArraysOf storage arrays).get ⟨i, hi⟩).2.1),
         (((extArraysOf storage arrays).take i).map entrySize).sum)) ∧
    (extMemSize Frame.StorageType.CPU_Heap
        [(0, 5, ⟨Frame.StorageType.CPU_Heap, Frame.AllocationLifetime.External, 4096, 1⟩)]
      = 4096 ∧
     extMemOffsets Frame.StorageType.CPU_Heap
        [(0, 5, ⟨Frame.StorageType.CPU_Heap, Frame.AllocationLifetime.External, 4096, 1⟩)]
      = [((0, 5), 0)]) := by
  refine ⟨?_, ?_, by decide, by decide⟩
  · intro storage arrays
    rw [extMemSize, foldl_add_size]; simp
  · intro storage arrays i hi
    have h0 : extMemOffsets storage arrays = offsetsFrom 0 (extArraysOf storage arrays) := by
      rw [extMemOffsets, foldl_offsets, List.nil_append]
    rw [h0, offsetsFrom_get _ _ _ hi]
    simp

/-- Witness for C5 at a concrete input with two external arrays of one
class: size is the total, offsets are 0 and the first array's byte size. -/
theorem external_memory_size_and_offsets_witness :
    extMemSize Frame.StorageType.CPU_Heap
        [(0, 5, ⟨Frame.StorageType.CPU_Heap, Frame.AllocationLifetime.External, 100, 4⟩),
         (0, 6, ⟨Frame.StorageType.CPU_Heap, Frame.AllocationLifetime.External, 10, 8⟩)]
      = ((extArraysOf Frame.StorageType.CPU_Heap
        [(0, 5, ⟨Frame.StorageType.CPU_Heap, Frame.AllocationLifetime.External, 100, 4⟩),
         (0, 6, ⟨Frame.StorageType.CPU_Heap, Frame.AllocationLifetime.External, 10, 8⟩)]).map entrySize).sum := by
  exact external_memory_size_and_offsets.1 Frame.StorageType.CPU_Heap _

end ExtMem

namespace STree

/-! ## Schedule-tree nodes (treenodes.py) -/

/-- The `INDENTATION` constant of treenodes.py. -/
def INDENTATION : String := "  "

/-- Models `indent * INDENTATION`. -/
def indentStr (indent : Nat) : String :=
  String.join (List.replicate indent INDENTATION)

/-- A `CodeBlock` as the printer sees it: only its `.as_string` rendering. -/
structure CodeBlockS where
  as_string : String
  deriving DecidableEq, Repr

/-- The slice of a `LoopRegion` read by `LoopScope._check_loop_variant` and
`LoopScope.as_string`: statements are `None`-able code blocks, the loop
variable is a possibly absent string (Python truthiness makes the empty
string count as absent). -/
structure LoopRegionS where
  update_statement : Option CodeBlockS
  init_statement : Option CodeBlockS
  loop_variable : Option String
  inverted : Bool
  update_before_condition : Bool
  loop_condition : CodeBlockS
  deriving DecidableEq, Repr

/-- Python truthiness of the loop-variable attribute: `None` and `''` are
falsy. -/
def pyTruthyStr : Option String → Bool
  | none => false
  | some s => !s.isEmpty

/-- The five syntactic loop variants returned by
`LoopScope._check_loop_variant` (lines 127-143). -/
inductive LoopVariant where
  | forL
  | whileL
  | doWhileL
  | doForUncondIncrement
  | doForL
  deriving DecidableEq, Repr

/-- Models `LoopScope._check_loop_variant` (lines 127-143). -/
def check_loop_variant (loop : LoopRegionS) : LoopVariant :=
  if loop.update_statement.isSome && loop.init_statement.isSome
      && pyTruthyStr loop.loop_variable then
    if loop.inverted then
      if loop.update_before_condition then LoopVariant.doForUncondIncrement
      else LoopVariant.doForL
    else LoopVariant.forL
  else
    if loop.inverted then LoopVariant.doWhileL
    else LoopVariant.whileL

/-- The scope flavours we embed: a plain `ScheduleTreeScope` and a
`LoopScope` carrying its loop region. -/
inductive ScopeKind where
  | plainK
  | loopK (loop : LoopRegionS)
  deriving DecidableEq, Repr

/-- A schedule-tree node: leaves carry their rendered text (standing for
`StateLabel`, `GotoNode`, `TaskletNode`, … whose `as_string` all emit
`indent * INDENTATION` plus node-specific text); scopes carry ordered
children.  Every node carries an identity and its `parent` back-reference
(as the parent's identity, `none` when unset). -/
inductive STNode where
  | leaf (id : Nat) (parent : Option Nat) (txt : String)
  | scope (kind : ScopeKind) (id : Nat) (parent : Option Nat)
      (children : List STNode)

/-- The parent field of a node. -/
def STNode.parentOf : STNode → Option Nat
  | STNode.leaf _ p _ => p
  | STNode.scope _ _ p _ => p

/-- The children list of a node (empty for leaves). -/
def STNode.childrenOf : STNode → List STNode
  | STNode.leaf _ _ _ => []
  | STNode.scope _ _ _ cs => cs

mutual

/-- Models `as_string` of the embedded nodes: `ScheduleTreeScope.as_string`
(lines 50-53) for plain scopes and `LoopScope.as_string` (lines 145-171)
for loop scopes. -/
def STNode.as_string (indent : Nat) : STNode → String
  | STNode.leaf _ _ txt => indentStr indent ++ txt
  | STNode.scope kind _ _ children =>
    let body :=
      match children with
      | [] => indentStr (indent + 1) ++ "pass"
      | c :: cs => String.intercalate "\n" (STNode.renderList (indent + 1) (c :: cs))
    match kind with
    | ScopeKind.plainK => body
    | ScopeKind.loopK loop =>
      match check_loop_variant loop with
      | LoopVariant.doForUncondIncrement =>
        indentStr indent ++ (loop.init_statement.getD ⟨""⟩).as_string ++ "\n"
          ++ indentStr indent ++ "do:\n"
          ++ body ++ "\n"
          ++ indentStr (indent + 1) ++ (loop.update_statement.getD ⟨""⟩).as_string ++ "\n"
          ++ indentStr indent ++ "while " ++ loop.loop_condition.as_string
      | LoopVariant.doForL =>
        indentStr indent ++ (loop.init_statement.getD ⟨""⟩).as_string ++ "\n"
          ++ indentStr indent ++ "while True:\n"
          ++ body ++ "\n"
          ++ indentStr (indent + 1) ++ "if (not " ++ loop.loop_condition.as_string ++ "):\n"
          ++ indentStr (indent + 2) ++ "break\n"
          ++ indentStr (indent + 1) ++ (loop.update_statement.getD ⟨""⟩).as_string ++ "\n"
      | LoopVariant.forL =>
        indentStr indent ++ "for " ++ (loop.init_statement.getD ⟨""⟩).as_string ++ "; "
          ++ loop.loop_condition.as_string ++ "; "
          ++ (loop.update_statement.getD ⟨""⟩).as_string ++ ":\n"
          ++ body
      | LoopVariant.whileL =>
        indentStr indent ++ "while " ++ loop.loop_condition.as_string ++ ":\n"
          ++ body
      | LoopVariant.doWhileL =>
        indentStr indent ++ "do:\n"
          ++ body ++ "\n"
          ++ indentStr indent ++ "while " ++ loop.loop_condition.as_string

/-- The renderings of a list of children (`[child.as_string(indent + 1)
for child in self.children]`). -/
def STNode.renderList (indent : Nat) : List STNode → List String
  | [] => []
  | c :: cs => STNode.as_string indent c :: STNode.renderList indent cs

end

/-- C6: `LoopScope` printing follows the fixed decision table over
(has update, has init, has loop variable, inverted, update-before-check):
`for` / do-with-unconditional-increment / do-with-conditional-break when
all three loop components are present, `while` / `do-while` otherwise; and
a non-inverted loop region with init `i = 0`, condition `i < 10`, update
`i = i + 1` renders as the corresponding `for` header. -/
theorem loop_variant_decision_table :
    (∀ loop : LoopRegionS,
      loop.update_statement.isSome = true → loop.init_statement.isSome = true →
      pyTruthyStr loop.loop_variable = true →
      (loop.inverted = false → check_loop_variant loop = LoopVariant.forL) ∧
      (loop.inverted = true → loop.update_before_condition = true →
        check_loop_variant loop = LoopVariant.doForUncondIncrement) ∧
      (loop.inverted = true → loop.update_before_condition = false →
        check_loop_variant loop = LoopVariant.doForL)) ∧
    (∀ loop : LoopRegionS,
      ¬(loop.update_statement.isSome = true ∧ loop.init_statement.isSome = true ∧
        pyTruthyStr loop.loop_variable = true) →
      (loop.inverted = false → check_loop_variant loop = LoopVariant.whileL) ∧
      (loop.inverted = true → check_loop_variant loop = LoopVariant.doWhileL)) ∧
    (STNode.as_string 0 (STNode.scope (ScopeKind.loopK
        ⟨some ⟨"i = i + 1"⟩, some ⟨"i = 0"⟩, some "i", false, false, ⟨"i < 10"⟩⟩)
        0 none []) = "for i = 0; i < 10; i = i + 1:\n  pass") := by
  refine ⟨?_, ?_, rfl⟩
  · intro loop h1 h2 h3
    refine ⟨fun hinv => ?_, fun hinv hu => ?_, fun hinv hu => ?_⟩
    · simp [check_loop_variant, h1, h2, h3, hinv]
    · simp [check_loop_variant, h1, h2, h3, hinv, hu]
    · simp [check_loop_variant, h1, h2, h3, hinv, hu]
  · intro loop h
    have hfalse : (loop.update_statement.isSome && loop.init_statement.isSome
        && pyTruthyStr loop.loop_variable) = false := by
      rcases Bool.eq_false_or_eq_true loop.update_statement.isSome with h1 | h1 <;>
        rcases Bool.eq_false_or_eq_true loop.init_statement.isSome with h2 | h2 <;>
          rcases Bool.eq_false_or_eq_true (pyTruthyStr loop.loop_variable) with h3 | h3 <;>
            simp [h1, h2, h3] at h ⊢
    refine ⟨fun hinv => ?_, fun hinv => ?_⟩ <;>
      simp [check_loop_variant, hfalse, hinv]

/-- Witness for C6: an inverted loop with all components and
update-before-check prints as a do-loop with unconditional increment. -/
theorem loop_variant_decision_table_witness :
    check_loop_variant ⟨some ⟨"i = i + 1"⟩, some ⟨"i = 0"⟩, some "i",
        true, true, ⟨"i < 10"⟩⟩ = LoopVariant.doForUncondIncrement :=
  ((loop_variant_decision_table.1 ⟨some ⟨"i = i + 1"⟩, some ⟨"i = 0"⟩, some "i",
      true, true, ⟨"i < 10"⟩⟩ rfl rfl rfl).2.1) rfl rfl

/-! ## The visitor/transformer protocol (lines 382-429) -/

/-- What an overridden `visit_<Class>` method returns: `None` (delete the
node), a single node, or a sequence of nodes to splice. -/
inductive VisitRes where
  | delete
  | keep (n : STNode)
  | splice (ns : List STNode)

/-- A `ScheduleNodeTransformer` subclass, as the set of its overridden
`visit_<Class>` methods: `none` means no override applies to the node and
dispatch falls through to `generic_visit`. -/
def Transformer := STNode → Option VisitRes

/-- The list of nodes an override's result contributes to `new_values`
(lines 417-425): a deleted node contributes nothing, a returned node
itself, a returned sequence all of its elements. -/
def applyRes : VisitRes → List STNode
  | VisitRes.delete => []
  | VisitRes.keep n => [n]
  | VisitRes.splice ns => ns

/-- Models `val.parent = node` (line 427): overwrite the parent field. -/
def setParentTop (p : Option Nat) : STNode → STNode
  | STNode.leaf i _ t => STNode.leaf i p t
  | STNode.scope k i _ cs => STNode.scope k i p cs

mutual

/-- Models `ScheduleNodeTransformer.generic_visit` (lines 414-429): visit the
children (dispatching to overrides where they exist), delete/replace/splice
according to the results, then re-point every surviving child's parent at
this scope; non-scope nodes are returned unchanged. -/
def genericVisit (f : Transformer) : STNode → STNode
  | STNode.leaf i p t => STNode.leaf i p t
  | STNode.scope k i p cs =>
    STNode.scope k i p ((visitList f cs).map (setParentTop (some i)))

/-- The `for value in node.children` loop of lines 417-425, producing
`new_values` (before the re-parenting of line 426-427). -/
def visitList (f : Transformer) : List STNode → List STNode
  | [] => []
  | c :: cs =>
    (match f c with
     | some r => applyRes r
     | none => [genericVisit f c]) ++ visitList f cs

end

mutual

/-- Parent-link consistency below a node: every child of every scope holds
its containing scope's identity in its parent field. -/
def subOk : STNode → Bool
  | STNode.leaf _ _ _ => true
  | STNode.scope _ i _ cs => subOkList (some i) cs

def subOkList (p : Option Nat) : List STNode → Bool
  | [] => true
  | c :: cs => (STNode.parentOf c == p) && subOk c && subOkList p cs

end

theorem parentOf_genericVisit (f : Transformer) (t : STNode) :
    (genericVisit f t).parentOf = t.parentOf := by
  cases t <;> rfl

theorem setParentTop_of_parentOf {p : Option Nat} {t : STNode}
    (h : t.parentOf = p) : setParentTop p t = t := by
  cases t <;> simp [STNode.parentOf] at h <;> simp [setParentTop, h]

theorem parentOf_setParentTop (p : Option Nat) (t : STNode) :
    (setParentTop p t).parentOf = p := by
  cases t <;> rfl

mutual

theorem genericVisit_id : ∀ t : STNode, subOk t = true →
    genericVisit (fun _ => none) t = t
  | STNode.leaf _ _ _, _ => rfl
  | STNode.scope k i p cs, h => by
    have hcs := visitList_id (some i) cs (by simpa [subOk] using h)
    simp only [genericVisit, hcs]

theorem visitList_id : ∀ (p : Option Nat) (cs : List STNode),
    subOkList p cs = true →
    (visitList (fun _ => none) cs).map (setParentTop p) = cs
  | _, [], _ => rfl
  | p, c :: cs, h => by
    have h1 : c.parentOf = p := by
      have := h
      simp only [subOkList, Bool.and_eq_true, beq_iff_eq] at this
      exact this.1.1
    have h2 : subOk c = true := by
      have := h
      simp only [subOkList, Bool.and_eq_true] at this
      exact this.1.2
    have h3 : subOkList p cs = true := by
      have := h
      simp only [subOkList, Bool.and_eq_true] at this
      exact this.2
    simp only [visitList, List.map_append, visitList_id p cs h3, List.map_cons,
      List.map_nil, genericVisit_id c h2, setParentTop_of_parentOf h1,
      List.singleton_append]

end

/-- C7: a transformer with no overrides (every node is returned
unchanged by dispatch) leaves a parent-consistent tree structurally
identical — same children in the same order, same parent links; and after
any `generic_visit` rewrite (overrides may delete a child, replace it, or
splice a sequence in its place) every child in the resulting children list
carries the containing scope's identity in its parent field. -/
theorem transformer_identity_and_reparenting :
    (∀ t : STNode, subOk t = true → genericVisit (fun _ => none) t = t) ∧
    (∀ (f : Transformer) (k : ScopeKind) (i : Nat) (p : Option Nat)
       (cs : List STNode),
      ∀ c ∈ (genericVisit f (STNode.scope k i p cs)).childrenOf,
        c.parentOf = some i) := by
  refine ⟨genericVisit_id, ?_⟩
  intro f k i p cs c hc
  simp only [genericVisit, STNode.childrenOf, List.mem_map] at hc
  obtain ⟨d, _, rfl⟩ := hc
  exact parentOf_setParentTop (some i) d

/-- Witness for C7: the identity transformer fixes a concrete two-level
tree, and re-parenting holds for a transformer that splices two new leaves
in place of the single child. -/
theorem transformer_identity_and_reparenting_witness :
    genericVisit (fun _ => none)
      (STNode.scope ScopeKind.plainK 0 none
        [STNode.leaf 1 (some 0) "tasklet()",
         STNode.scope ScopeKind.plainK 2 (some 0) [STNode.leaf 3 (some 2) "goto exit"]]) =
      STNode.scope ScopeKind.plainK 0 none
        [STNode.leaf 1 (some 0) "tasklet()",
         STNode.scope ScopeKind.plainK 2 (some 0) [STNode.leaf 3 (some 2) "goto exit"]] ∧
    ∀ c ∈ (genericVisit
        (fun n => match n with
          | STNode.leaf 1 _ _ =>
            some (VisitRes.splice [STNode.leaf 4 none "a", STNode.leaf 5 none "b"])
          | _ => none)
        (STNode.scope ScopeKind.plainK 0 none
          [STNode.leaf 1 (some 0) "tasklet()"])).childrenOf,
      c.parentOf = some 0 := by
  constructor
  · exact transformer_identity_and_reparenting.1 _ rfl
  · exact transformer_identity_and_reparenting.2 _ ScopeKind.plainK 0 none _

end STree

namespace FileHeader

/-! ## Custom-type emission in `generate_fileheader` (framecode.py
lines 152-182) -/

/-- A `dtypes.typeclass` as `_emit_definitions` walks it: a plain type, a
pointer wrapping an inner type (`dtype._typeclass`), or a struct with field
types (`dtype.fields.values()`).  `id` stands for the dtype value used as
the key of the `emitted` set, `hasEmit` for
`hasattr(dtype, 'emit_definition')`. -/
inductive Typeclass where
  | base (id : Nat) (hasEmit : Bool)
  | ptr (id : Nat) (hasEmit : Bool) (inner : Typeclass)
  | structT (id : Nat) (hasEmit : Bool) (fields : List Typeclass)

/-- Lines 168-174: emit this dtype's own definition unless already in
`emitted` (the emission stream and the `emitted` set coincide, since a
definition is written exactly when its dtype is added). -/
def selfEmit (i : Nat) (hasEmit : Bool) (out : List Nat) : List Nat :=
  if hasEmit = true ∧ i ∉ out then out ++ [i] else out

mutual

/-- Models `_emit_definitions(dtype, ...)` (lines 162-175): recurse into pointer
and struct-field types first, then emit the dtype itself at most once.
The `wrote_something` blank-line bookkeeping does not affect which
definitions are emitted and is omitted. -/
def emitDefs : Typeclass → List Nat → List Nat
  | Typeclass.base i he, out => selfEmit i he out
  | Typeclass.ptr i he inner, out => selfEmit i he (emitDefs inner out)
  | Typeclass.structT i he fields, out => selfEmit i he (emitDefsList fields out)

/-- The fold over struct fields (`for field in dtype.fields.values()`). -/
def emitDefsList : List Typeclass → List Nat → List Nat
  | [], out => out
  | t :: ts, out => emitDefsList ts (emitDefs t out)

end

/-- Models `for typ in datatypes: _emit_definitions(typ, ...)` (lines 178-180)
starting from an empty `emitted` set: the sequence of emitted type
definitions of one `generate_fileheader` call. -/
def fileheaderTypeDefs (datatypes : List Typeclass) : List Nat :=
  emitDefsList datatypes []

mutual

/-- The dtypes with an `emit_definition` reachable from a type through
pointer and struct-field nesting (each contributing its identity). -/
def emitIds : Typeclass → List Nat
  | Typeclass.base i he => if he then [i] else []
  | Typeclass.ptr i he inner => emitIds inner ++ (if he then [i] else [])
  | Typeclass.structT i he fields => emitIdsList fields ++ (if he then [i] else [])

def emitIdsList : List Typeclass → List Nat
  | [] => []
  | t :: ts => emitIds t ++ emitIdsList ts

end

theorem selfEmit_mem {j i : Nat} {he : Bool} {out : List Nat} :
    j ∈ selfEmit i he out ↔ j ∈ out ∨ (he = true ∧ j = i) := by
  unfold selfEmit
  by_cases h : he = true ∧ i ∉ out
  · simp [h, h.1, List.mem_append]
  · by_cases h1 : he = true
    · have h2 : i ∈ out := by
        by_contra hmem
        exact h ⟨h1, hmem⟩
      rw [if_neg h]
      constructor
      · exact Or.inl
      · rintro (hj | ⟨-, rfl⟩)
        · exact hj
        · exact h2
    · have h1f : he = false := by simpa using h1
      simp [h, h1f]

theorem selfEmit_nodup {i : Nat} {he : Bool} {out : List Nat}
    (h : out.Nodup) : (selfEmit i he out).Nodup := by
  unfold selfEmit
  by_cases hc : he = true ∧ i ∉ out
  · simp only [hc, if_true]
    simp [List.nodup_append, h, hc.2]
  · simp [hc, h]

mutual

theorem emitDefs_mem_iff : ∀ (t : Typeclass) (out : List Nat) (j : Nat),
    j ∈ emitDefs t out ↔ j ∈ out ∨ j ∈ emitIds t
  | Typeclass.base i he, out, j => by
    simp only [emitDefs, selfEmit_mem, emitIds]
    cases he <;> simp
  | Typeclass.ptr i he inner, out, j => by
    simp only [emitDefs, selfEmit_mem, emitDefs_mem_iff inner out j, emitIds,
      List.mem_append]
    cases he <;> (simp; try tauto)
  | Typeclass.structT i he fields, out, j => by
    simp only [emitDefs, selfEmit_mem, emitDefsList_mem_iff fields out j,
      emitIds, List.mem_append]
    cases he <;> (simp; try tauto)

theorem emitDefsList_mem_iff : ∀ (ts : List Typeclass) (out : List Nat) (j : Nat),
    j ∈ emitDefsList ts out ↔ j ∈ out ∨ j ∈ emitIdsList ts
  | [], out, j => by simp [emitDefsList, emitIdsList]
  | t :: ts, out, j => by
    simp only [emitDefsList, emitDefsList_mem_iff ts _ j,
      emitDefs_mem_iff t out j, emitIdsList, List.mem_append]
    tauto

end

mutual

theorem emitDefs_nodup : ∀ (t : Typeclass) (out : List Nat),
    out.Nodup → (emitDefs t out).Nodup
  | Typeclass.base _ _, _, h => selfEmit_nodup h
  | Typeclass.ptr _ _ inner, out, h => selfEmit_nodup (emitDefs_nodup inner out h)
  | Typeclass.structT _ _ fields, out, h =>
    selfEmit_nodup (emitDefsList_nodup fields out h)

theorem emitDefsList_nodup : ∀ (ts : List Typeclass) (out : List Nat),
    out.Nodup → (emitDefsList ts out).Nodup
  | [], _, h => h
  | t :: ts, out, h => emitDefsList_nodup ts _ (emitDefs_nodup t out h)

end

/-- C9: one `generate_fileheader` call emits every custom data type
that is reachable from some buffer's dtype through pointer and struct-field
nesting exactly once — the emitted list has no duplicates, contains exactly
the reachable definition-carrying dtypes, and each of them is counted once
even when referenced from several buffers. -/
theorem custom_type_definitions_emitted_once (datatypes : List Typeclass) :
    (fileheaderTypeDefs datatypes).Nodup ∧
    (∀ i, i ∈ fileheaderTypeDefs datatypes ↔ i ∈ emitIdsList datatypes) ∧
    (∀ i, i ∈ emitIdsList datatypes → (fileheaderTypeDefs datatypes).count i = 1) := by
  have hnd : (fileheaderTypeDefs datatypes).Nodup :=
    emitDefsList_nodup datatypes [] List.nodup_nil
  have hmem : ∀ i, i ∈ fileheaderTypeDefs datatypes ↔ i ∈ emitIdsList datatypes := by
    intro i
    rw [fileheaderTypeDefs, emitDefsList_mem_iff]
    simp
  refine ⟨hnd, hmem, fun i hi => ?_⟩
  exact List.count_eq_one_of_mem hnd ((hmem i).mpr hi)

/-- Witness for C9: a struct referenced both directly and through a
pointer from a second buffer is emitted once (count 1), as is its field
type. -/
theorem custom_type_definitions_emitted_once_witness :
    (fileheaderTypeDefs
      [Typeclass.structT 1 true [Typeclass.base 2 true],
       Typeclass.ptr 0 false (Typeclass.structT 1 true [Typeclass.base 2 true])]).count 1 = 1 :=
  (custom_type_definitions_emitted_once
    [Typeclass.structT 1 true [Typeclass.base 2 true],
     Typeclass.ptr 0 false (Typeclass.structT 1 true [Typeclass.base 2 true])]).2.2
    1 (by decide)

end FileHeader

namespace Cleanup

/-! ## The final text-cleanup pass of `generate_code` (framecode.py
lines 992-1015), embedded at character level -/

/-- Python's `\s` character class used by the `re` patterns. -/
def pySpace (c : Char) : Bool :=
  c = ' ' || c = '\t' || c = '\n' || c = '\r' || c = '\x0b' || c = '\x0c'

/-- Models `line.strip()`. -/
def pyStrip (l : List Char) : List Char :=
  ((l.dropWhile pySpace).reverse.dropWhile pySpace).reverse

/-- Models `not line.strip()` (line 999). -/
def isBlankLine (l : List Char) : Bool := (pyStrip l).isEmpty

/-- Models `re.match(r'^\s*;\s*', line)` succeeds (line 1002) exactly when the
line's first non-whitespace character is a semicolon. -/
def semiMatch (l : List Char) : Bool :=
  match l.dropWhile pySpace with
  | ';' :: _ => true
  | _ => false

/-- Models `[a-zA-Z_]`. -/
def isIdStart (c : Char) : Bool := c.isAlpha || c = '_'

/-- Models `[a-zA-Z_0-9]`. -/
def isIdChar (c : Char) : Bool := c.isAlpha || c = '_' || c.isDigit

/-- Models `re.findall(r'^\s*([a-zA-Z_][a-zA-Z_0-9]*):\s*[;]?\s*////.*$', line)`
(line 1005): the name of a generated jump-target label line, when the line
is one. -/
def labelOf (l : List Char) : Option (List Char) :=
  let l1 := l.dropWhile pySpace
  let name := l1.takeWhile isIdChar
  let rest := l1.dropWhile isIdChar
  match name with
  | [] => none
  | c :: _ =>
    if !isIdStart c then none
    else
      match rest with
      | ':' :: r2 =>
        let r3 := r2.dropWhile pySpace
        let r4 := match r3 with
                  | ';' :: t => t
                  | _ => r3
        let r5 := r4.dropWhile pySpace
        if r5.take 4 = ['/', '/', '/', '/'] then some name else none
      | _ => none

/-- The capture of `goto (.*?);` after the literal `"goto "`: the shortest
run of non-newline characters up to a semicolon, with the rest of the text
after that semicolon; `none` when a newline or the end of text intervenes
(`.` does not match a newline). -/
def gotoCapture : List Char → Option (List Char × List Char)
  | [] => none
  | c :: rest =>
    if c = ';' then some ([], rest)
    else if c = '\n' then none
    else
      match gotoCapture rest with
      | some (tgt, after) => some (c :: tgt, after)
      | none => none

/-- Models `re.findall(r'goto (.*?);', generated_code)` (line 993): scan left to
right; on a match, resume after its semicolon; on a failed attempt, advance
one character.  The fuel argument (instantiated with the text length, which
bounds every scan) keeps the recursion structural. -/
def findGotosF : Nat → List Char → List (List Char)
  | 0, _ => []
  | _ + 1, [] => []
  | fuel + 1, c :: rest =>
    if (c :: rest).take 5 = ['g', 'o', 't', 'o', ' '] then
      match gotoCapture (rest.drop 4) with
      | some (tgt, after) => tgt :: findGotosF fuel after
      | none => findGotosF fuel rest
    else findGotosF fuel rest

def findGotos (text : List Char) : List (List Char) :=
  findGotosF text.length text

/-- Models `f'goto {label};'`. -/
def gotoStmt (lab : List Char) : List Char :=
  ['g', 'o', 't', 'o', ' '] ++ lab ++ [';']

/-- Python's `needle in hay` substring test. -/
def containsSub (needle : List Char) : List Char → Bool
  | [] => needle.isEmpty
  | c :: rest => needle.isPrefixOf (c :: rest) || containsSub needle rest

/-- One iteration of the `for line in generated_code.split('\n')` loop
(lines 997-1015).  The state is the kept lines (most recent first — the
reverse of `clean_code`) and `last_line`; `clean_code[:-len(last_line)-1]`
removes the most recent kept line, which by construction is `last_line`
whenever `last_line` is non-empty. -/
def cleanStep (gotos : List (List Char)) (st : List (List Char) × List Char)
    (line : List Char) : List (List Char) × List Char :=
  let acc := st.1
  let lastL := st.2
  if isBlankLine line then (acc, lastL)
  else if semiMatch line then (acc, lastL)
  else
    match labelOf line with
    | some lab =>
      if lab ∉ gotos then (acc, [])
      else if containsSub (gotoStmt lab) lastL && gotos.count lab == 1 then
        (acc.tail, [])
      else (line :: acc, line)
    | none => (line :: acc, line)

/-- Models `generated_code.split('\n')`. -/
def splitLines : List Char → List (List Char)
  | [] => [[]]
  | c :: rest =>
    if c = '\n' then [] :: splitLines rest
    else
      match splitLines rest with
      | l :: ls => (c :: l) :: ls
      | [] => [[c]]

/-- The cleanup pass (lines 992-1015): the list of lines of `clean_code`,
in order. -/
def cleanup (text : List Char) : List (List Char) :=
  let gotos := findGotos text
  ((splitLines text).foldl (cleanStep gotos) ([], [])).1.reverse

/-- The claim's "empty-statement (lone semicolon) line": stripping
whitespace leaves exactly one semicolon. -/
def isLoneSemi (l : List Char) : Bool := pyStrip l == [';']

/-- A line none of the cleanup's removal conditions can ever apply to:
non-blank, not semicolon-led, not a generated label line, and free of the
`"goto "` marker (so it can never be the collapsed jump either). -/
def safeLine (l : List Char) : Bool :=
  !isBlankLine l && !semiMatch l && (labelOf l).isNone
    && !containsSub ['g', 'o', 't', 'o', ' '] l

theorem containsSub_mono {n1 n2 : List Char} (hp : n1 <+: n2) :
    ∀ {hay : List Char}, containsSub n2 hay = true → containsSub n1 hay = true := by
  intro hay
  induction hay with
  | nil =>
    intro h
    simp only [containsSub, List.isEmpty_iff] at h ⊢
    exact List.eq_nil_of_prefix_nil (h ▸ hp)
  | cons c rest ih =>
    intro h
    simp only [containsSub, Bool.or_eq_true] at h ⊢
    rcases h with h | h
    · exact Or.inl (List.isPrefixOf_iff_prefix.mpr
        (hp.trans (List.isPrefixOf_iff_prefix.mp h)))
    · exact Or.inr (ih h)

/-- The cleanup loop's state invariant: `last_line` is empty, or is the
most recently kept line. -/
def headInv (st : List (List Char) × List Char) : Prop :=
  st.2 = [] ∨ ∃ t, st.1 = st.2 :: t

theorem cleanStep_headInv (gotos : List (List Char))
    (st : List (List Char) × List Char) (line : List Char) :
    headInv st → headInv (cleanStep gotos st line) := by
  intro h
  unfold cleanStep
  by_cases h1 : isBlankLine line = true
  · simpa [h1] using h
  by_cases h2 : semiMatch line = true
  · simpa [h1, h2] using h
  rcases hl : labelOf line with _ | lab
  · simp [h1, h2, hl, headInv]
  by_cases h3 : lab ∉ gotos
  · simp [h1, h2, hl, h3, headInv]
  by_cases h4 : (containsSub (gotoStmt lab) st.2 && gotos.count lab == 1) = true
  · simp [h1, h2, hl, h3, h4, headInv]
  · simp [h1, h2, hl, h3, h4, headInv]

/-- What the cleanup may keep: every line of the new accumulator is an old
accumulator line, or is the current line and then it is non-blank, not
semicolon-led, and any label it forms is a goto target. -/
theorem cleanStep_acc_sub (gotos : List (List Char))
    (st : List (List Char) × List Char) (line : List Char) :
    ∀ l ∈ (cleanStep gotos st line).1, l ∈ st.1 ∨
      (l = line ∧ isBlankLine line = false ∧ semiMatch line = false ∧
       ∀ lab, labelOf line = some lab → lab ∈ gotos) := by
  intro l hl
  unfold cleanStep at hl
  by_cases h1 : isBlankLine line = true
  · exact Or.inl (by simpa [h1] using hl)
  by_cases h2 : semiMatch line = true
  · exact Or.inl (by simpa [h1, h2] using hl)
  rcases hlab : labelOf line with _ | lab
  · simp only [h1, h2, hlab, if_false, Bool.false_eq_true] at hl
    rcases List.mem_cons.mp hl with rfl | hmem
    · exact Or.inr ⟨rfl, by simpa using h1, by simpa using h2, by simp [hlab]⟩
    · exact Or.inl hmem
  by_cases h3 : lab ∉ gotos
  · simp only [h1, h2, hlab, h3, if_true, Bool.false_eq_true, if_false] at hl
    exact Or.inl hl
  by_cases h4 : (containsSub (gotoStmt lab) st.2 && gotos.count lab == 1) = true
  · simp only [h1, h2, hlab, h3, h4, if_true, Bool.false_eq_true, if_false] at hl
    exact Or.inl (List.mem_of_mem_tail hl)
  · simp only [h1, h2, hlab, h3, h4, Bool.false_eq_true, if_false] at hl
    rcases List.mem_cons.mp hl with rfl | hmem
    · refine Or.inr ⟨rfl, by simpa using h1, by simpa using h2, ?_⟩
      intro lab2 hlab2
      simp only [hlab, Option.some.injEq] at hlab2
      subst hlab2
      simpa using h3
    · exact Or.inl hmem

/-- A safe line (non-blank, not semicolon-led, not a label, without the
`"goto "` marker) already kept, or being processed, survives the step. -/
theorem cleanStep_safe_mem (gotos : List (List Char))
    (st : List (List Char) × List Char) (line : List Char)
    (hinv : headInv st) (l : List Char) (hs : safeLine l = true) :
    l ∈ st.1 ∨ l = line → l ∈ (cleanStep gotos st line).1 := by
  intro hmem
  simp only [safeLine, Bool.and_eq_true, Bool.not_eq_true', Option.isNone_iff_eq_none]
    at hs
  obtain ⟨⟨⟨hsb, hss⟩, hsl⟩, hsg⟩ := hs
  unfold cleanStep
  by_cases h1 : isBlankLine line = true
  · rcases hmem with hmem | rfl
    · simpa [h1] using hmem
    · rw [hsb] at h1; cases h1
  by_cases h2 : semiMatch line = true
  · rcases hmem with hmem | rfl
    · simpa [h1, h2] using hmem
    · rw [hss] at h2; cases h2
  rcases hlab : labelOf line with _ | lab
  · simp only [h1, h2, hlab, Bool.false_eq_true, if_false]
    rcases hmem with hmem | rfl
    · exact List.mem_cons_of_mem _ hmem
    · exact List.mem_cons_self _ _
  · -- `line` is a label line, so `l ≠ line`
    rcases hmem with hmem | rfl
    · by_cases h3 : lab ∉ gotos
      · simpa [h1, h2, hlab, h3] using hmem
      by_cases h4 : (containsSub (gotoStmt lab) st.2 && gotos.count lab == 1) = true
      · simp only [h1, h2, hlab, h3, h4, if_true, Bool.false_eq_true, if_false]
        -- the collapse removes `last_line`, which carries the goto marker
        have hc : containsSub (gotoStmt lab) st.2 = true :=
          (Bool.and_eq_true_iff.mp h4).1
        have hne : st.2 ≠ [] := by
          intro hnil
          rw [hnil] at hc
          simp [containsSub, gotoStmt] at hc
        rcases hinv with hinv | ⟨t, ht⟩
        · exact absurd hinv hne
        · rw [ht] at hmem ⊢
          rcases List.mem_cons.mp hmem with rfl | hmem2
          · exfalso
            have hpre : ['g', 'o', 't', 'o', ' '] <+: gotoStmt lab :=
              ⟨lab ++ [';'], by simp [gotoStmt]⟩
            have hmark := containsSub_mono hpre hc
            rw [hsg] at hmark
            cases hmark
          · simpa using hmem2
      · simp only [h1, h2, hlab, h3, h4, Bool.false_eq_true, if_false]
        exact List.mem_cons_of_mem _ hmem
    · rw [hsl] at hlab; cases hlab

theorem fold_safe_mem (gotos : List (List Char)) :
    ∀ (lines : List (List Char)) (st : List (List Char) × List Char),
      headInv st → ∀ l, safeLine l = true → (l ∈ st.1 ∨ l ∈ lines) →
      l ∈ (lines.foldl (cleanStep gotos) st).1 := by
  intro lines
  induction lines with
  | nil =>
    intro st _ l _ hmem
    simpa using hmem.resolve_right (by simp)
  | cons ln ls ih =>
    intro st hinv l hs hmem
    rw [List.foldl_cons]
    rcases hmem with hmem | hln
    · exact ih _ (cleanStep_headInv gotos st ln hinv) l hs
        (Or.inl (cleanStep_safe_mem gotos st ln hinv l hs (Or.inl hmem)))
    · rcases List.mem_cons.mp hln with rfl | hls
      · exact ih _ (cleanStep_headInv gotos st l hinv) l hs
          (Or.inl (cleanStep_safe_mem gotos st l hinv l hs (Or.inr rfl)))
      · exact ih _ (cleanStep_headInv gotos st ln hinv) l hs (Or.inr hls)

theorem fold_keep (gotos : List (List Char)) :
    ∀ (lines : List (List Char)) (st : List (List Char) × List Char),
      (∀ l ∈ st.1, isBlankLine l = false ∧ semiMatch l = false ∧
        ∀ lab, labelOf l = some lab → lab ∈ gotos) →
      ∀ l ∈ (lines.foldl (cleanStep gotos) st).1,
        isBlankLine l = false ∧ semiMatch l = false ∧
        ∀ lab, labelOf l = some lab → lab ∈ gotos := by
  intro lines
  induction lines with
  | nil => intro st h; simpa using h
  | cons ln ls ih =>
    intro st h
    rw [List.foldl_cons]
    refine ih _ ?_
    intro l hl
    rcases cleanStep_acc_sub gotos st ln l hl with hmem | ⟨rfl, hb, hsm, hlab⟩
    · exact h l hmem
    · exact ⟨hb, hsm, hlab⟩

theorem tail_reverse_sublist (acc : List (List Char)) :
    acc.tail.reverse.Sublist acc.reverse := by
  cases acc with
  | nil => simp
  | cons a t =>
    simp only [List.tail_cons, List.reverse_cons]
    exact List.sublist_append_left _ _

theorem fold_sublist (gotos : List (List Char)) :
    ∀ (lines : List (List Char)) (st : List (List Char) × List Char),
      ((lines.foldl (cleanStep gotos) st).1).reverse.Sublist
        (st.1.reverse ++ lines) := by
  intro lines
  induction lines with
  | nil => intro st; simp
  | cons ln ls ih =>
    intro st
    rw [List.foldl_cons]
    have step : ∀ (st' : List (List Char) × List Char),
        st' = cleanStep gotos st ln →
        ((ls.foldl (cleanStep gotos) st').1).reverse.Sublist
          (st.1.reverse ++ ln :: ls) := by
      intro st' hst
      have hbase := ih st'
      have hshape : st'.1 = st.1 ∨ st'.1 = st.1.tail ∨ st'.1 = ln :: st.1 := by
        rw [hst]
        unfold cleanStep
        by_cases h1 : isBlankLine ln = true
        · simp [h1]
        by_cases h2 : semiMatch ln = true
        · simp [h1, h2]
        rcases hl : labelOf ln with _ | lab
        · simp [h1, h2, hl]
        by_cases h3 : lab ∉ gotos
        · simp [h1, h2, hl, h3]
        by_cases h4 : (containsSub (gotoStmt lab) st.2 && gotos.count lab == 1) = true
        · simp [h1, h2, hl, h3, h4]
        · simp [h1, h2, hl, h3, h4]
      rcases hshape with hsh | hsh | hsh
      · refine hbase.trans ?_
        rw [hsh]
        exact List.Sublist.append (List.Sublist.refl _) (List.sublist_cons_self _ _)
      · refine hbase.trans ?_
        rw [hsh]
        exact List.Sublist.append (tail_reverse_sublist st.1) (List.sublist_cons_self _ _)
      · refine hbase.trans ?_
        rw [hsh]
        simp only [List.reverse_cons, List.append_assoc, List.singleton_append]
        exact List.Sublist.refl _
    exact step _ rfl

/-- C8 (amended): the final cleanup keeps a subsequence of the input
lines (it only deletes, never edits); it removes every blank line and every
line whose first non-whitespace character is a semicolon (in particular
every lone-semicolon line); every surviving generated label line is the
target of some goto of the pre-cleanup text; a line that is none of these
and carries no `"goto "` text is never removed; and the concrete dead-label
and jump-to-next-label scenarios collapse as described. -/
theorem cleanup_text_hygiene :
    (∀ text : List Char,
      (cleanup text).Sublist (splitLines text) ∧
      (∀ l ∈ cleanup text,
        isBlankLine l = false ∧ semiMatch l = false ∧
        ∀ lab, labelOf l = some lab → lab ∈ findGotos text) ∧
      (∀ l ∈ splitLines text, safeLine l = true → l ∈ cleanup text)) ∧
    cleanup "goto A;\nA:;//// x\ny = 1;\n".data = ["y = 1;".data] ∧
    cleanup "B:;//// x\ny = 1;\n".data = ["y = 1;".data] := by
  refine ⟨?_, by decide, by decide⟩
  intro text
  refine ⟨?_, ?_, ?_⟩
  · simpa using fold_sublist (findGotos text) (splitLines text) ([], [])
  · intro l hl
    exact fold_keep (findGotos text) (splitLines text) ([], []) (by simp) l
      (by simpa [cleanup] using hl)
  · intro l hl hs
    simpa [cleanup] using
      fold_safe_mem (findGotos text) (splitLines text) ([], []) (Or.inl rfl)
        l hs (Or.inr hl)

/-- Witness for C8's amended theorem at a concrete text: the kept lines of
a two-line program are a subsequence, and its safe line survives. -/
theorem cleanup_text_hygiene_witness :
    (cleanup "x = 5;\n  ; foo();\n".data).Sublist
      (splitLines "x = 5;\n  ; foo();\n".data) ∧
    "x = 5;".data ∈ cleanup "x = 5;\n  ; foo();\n".data := by
  constructor
  · exact (cleanup_text_hygiene.1 "x = 5;\n  ; foo();\n".data).1
  · exact (cleanup_text_hygiene.1 "x = 5;\n  ; foo();\n".data).2.2
      "x = 5;".data (by decide) (by decide)

/-- C8, counterexample to the claim as stated**: the cleanup removes the
line `"  ; foo();"`, which is neither blank, nor a lone-semicolon line, nor
a label line, from a text with no gotos at all — so the pass deletes more
than the claim enumerates (any line whose first non-whitespace character is
a semicolon is dropped). -/
theorem cleanup_removes_semicolon_led_lines :
    isBlankLine "  ; foo();".data = false ∧
    isLoneSemi "  ; foo();".data = false ∧
    labelOf "  ; foo();".data = none ∧
    findGotos "x = 5;\n  ; foo();\n".data = [] ∧
    "  ; foo();".data ∈ splitLines "x = 5;\n  ; foo();\n".data ∧
    cleanup "x = 5;\n  ; foo();\n".data = ["x = 5;".data] := by
  decide

end Cleanup
